import Mathlib

/-!
# Nautilus: D-Bus manager, places view and preferences

A shallow embedding of pieces of the file manager:

* `libnautilus-private/nautilus-dbus-manager.c`: the `CopyURIs` method
  dispatcher (`handle_method_call`, `trigger_copy_file_operation`) and the
  life cycle of the manager (`init`, `bus_acquired_handler_cb`, `dispose`,
  `start`, `stop`);
* `src/gtk/gtkplacesviewrow.c`: the asynchronous free-space probe of a row of
  the places view (`measure_available_space`,
  `measure_available_space_finished`, `set_property`);
* `src/nautilus-empty-view.c`: the virtual methods of the empty view;
* `src/nautilus-places-view.c`: the location of the places view;
* `src/nautilus-preferences-window.c`: the caption combo boxes, the thumbnail
  limit mapping and the radio groups;
* `src/nautilus-floating-bar.c`: the labels, the action buttons and the
  alignment of the floating bar.

Calls into collaborators (GIO, GDBus, the file-operations engine) are recorded
as events of a trace, in program order. Reference counting and freeing
(`g_object_unref`, `g_list_free_full`, `g_free`) are not modelled.
-/

namespace Nautilus

/-- A `GFile` location handle. `g_file_new_for_uri` never fails and the handle
is determined by the URI it was built from. -/
structure GFile where
  uri : String
  deriving DecidableEq, Repr

/-- Location handle for a URI (`g_file_new_for_uri`). -/
def g_file_new_for_uri (uri : String) : GFile := ⟨uri⟩

namespace DBusManager

/-- The value of the message body of a call to `CopyURIs`: a tuple of D-Bus
type `(ass)`, as declared by `introspection_xml`. A D-Bus string is never a
null pointer. -/
structure GVariant where
  uris : List String
  destination : String
  deriving DecidableEq, Repr

/-- Calls made by the dispatcher to its collaborators. -/
inductive Event where
  /-- `g_debug (format, args...)`; a null `%s` argument is `none`. -/
  | g_debug (format : String) (args : List (Option String))
  /-- `g_variant_get (parameters, format, ...)`. -/
  | g_variant_get (parameters : GVariant) (format : String)
  /-- `g_file_new_for_uri (uri)`. -/
  | g_file_new_for_uri (uri : String)
  /-- `nautilus_file_operations_copy (files, NULL, target_dir, NULL, NULL, NULL)`. -/
  | nautilus_file_operations_copy (files : List GFile) (target_dir : GFile)
  /-- `g_dbus_method_invocation_return_value (invocation, parameters)`;
  `none` is the `NULL` value, the empty reply. -/
  | g_dbus_method_invocation_return_value (parameters : Option GVariant)
  /-- `g_dbus_method_invocation_return_error (invocation, ...)`: an error reply. -/
  | g_dbus_method_invocation_return_error (code : Int) (message : String)
  deriving DecidableEq, Repr

/-- The `for` loop of `trigger_copy_file_operation`: `rest` is what is left of
the null-terminated vector from index `idx` on, `source_files` the list built
so far. Each round builds one location and prepends it (`g_list_prepend`).
Returns the final list and the calls made. -/
def trigger_copy_file_operation_loop :
    List String → List GFile → List GFile × List Event
  | [], source_files => (source_files, [])
  | uri :: rest, source_files =>
    let r := trigger_copy_file_operation_loop rest (g_file_new_for_uri uri :: source_files)
    (r.1, Event.g_file_new_for_uri uri :: r.2)

/-- Embedding of `trigger_copy_file_operation (sources, destination)`. A
null-terminated `gchar **` is `none` when the pointer is null and otherwise
the list of the strings before the terminator, so `sources[0] == NULL` is
`some []`. The result is the trace of calls. -/
def trigger_copy_file_operation (sources : Option (List String))
    (destination : Option String) : List Event :=
  match sources, destination with
  | some (uri :: rest), some dest =>
    let dest_dir := g_file_new_for_uri dest
    let r := trigger_copy_file_operation_loop (uri :: rest) []
    [Event.g_file_new_for_uri dest] ++ r.2 ++
      [Event.nautilus_file_operations_copy r.1 dest_dir]
  | _, _ => [Event.g_debug "Called 'CopyURIs' with NULL arguments, discarding" []]

/-- Comparison `g_strcmp0 (a, b) == 0`, which accepts null pointers. -/
def g_strcmp0_eq (a b : Option String) : Bool := a == b

/-- Embedding of `handle_method_call`. The connection, sender, object path,
interface name and user data are not read by the function. With the format
`(^a&s&s)`, `g_variant_get` stores a non-null vector and a non-null string. -/
def handle_method_call (method_name : Option String) (parameters : GVariant) :
    List Event :=
  (if g_strcmp0_eq method_name (some "CopyURIs") then
    let uris : Option (List String) := some parameters.uris
    let destination_uri : Option String := some parameters.destination
    [Event.g_variant_get parameters "(^a&s&s)"] ++
      trigger_copy_file_operation uris destination_uri ++
      [Event.g_debug "Called CopyURIs with dest %s and uri %s\n"
        [destination_uri, parameters.uris.head?]]
  else []) ++
  [Event.g_dbus_method_invocation_return_value none]

/-- The invocations of the copy collaborator in a trace, in order, each with
its source list and its destination. -/
def copies : List Event → List (List GFile × GFile)
  | [] => []
  | Event.nautilus_file_operations_copy files dir :: t => (files, dir) :: copies t
  | _ :: t => copies t

/-- The location objects constructed in a trace, in order, by URI. -/
def constructed : List Event → List String
  | [] => []
  | Event.g_file_new_for_uri uri :: t => uri :: constructed t
  | _ :: t => constructed t

/-- The replies sent on the bus in a trace, in order. -/
def replies : List Event → List Event
  | [] => []
  | Event.g_dbus_method_invocation_return_value v :: t =>
    Event.g_dbus_method_invocation_return_value v :: replies t
  | Event.g_dbus_method_invocation_return_error c m :: t =>
    Event.g_dbus_method_invocation_return_error c m :: replies t
  | _ :: t => replies t

/-- The parses of a message body in a trace. -/
def parses : List Event → List GVariant
  | [] => []
  | Event.g_variant_get p _ :: t => p :: parses t
  | _ :: t => parses t

end DBusManager

namespace PlacesViewRow

/-- A mount; `root` is what `g_mount_get_root` returns for it. -/
structure GMount where
  root : GFile
  deriving DecidableEq, Repr

/-- A volume; `mount` is what `g_volume_get_mount` returns for it at the time
of the call (`none` when the volume is not mounted). -/
structure GVolume where
  mount : Option GMount
  deriving DecidableEq, Repr

/-- Identity of a `GCancellable` object. -/
abbrev GCancellable := Nat

/-- A `GError`: domain quark, code and message. -/
structure GError where
  domain : String
  code : Int
  message : String
  deriving DecidableEq, Repr

/-- The error domain of GIO. -/
def G_IO_ERROR : String := "g-io-error-quark"

/-- Code `G_IO_ERROR_NOT_MOUNTED` of the `GIOErrorEnum`. -/
def G_IO_ERROR_NOT_MOUNTED : Int := 16

/-- Code `G_IO_ERROR_CANCELLED` of the `GIOErrorEnum`. -/
def G_IO_ERROR_CANCELLED : Int := 19

/-- Test `g_error_matches (error, domain, code)`. -/
def g_error_matches (error : GError) (domain : String) (code : Int) : Bool :=
  error.domain == domain && error.code == code

/-- The two attributes of a `GFileInfo` the row reads, `filesystem::free` and
`filesystem::size`; each is `none` when the info lacks the attribute and
otherwise its `guint64` value. -/
structure GFileInfo where
  filesystem_free : Option Nat
  filesystem_size : Option Nat
  deriving DecidableEq, Repr

/-- Outcome delivered by `g_file_query_filesystem_info_finish`: the info, or
`NULL` with the error set. -/
inductive QueryResult where
  | info (i : GFileInfo)
  | error (e : GError)
  deriving DecidableEq, Repr

/-- What the row needs from its environment: the message catalogue behind the
`_()` of `glib/gi18n.h` and the size formatter `g_format_size` of GLib. -/
structure Env where
  gettext : String → String
  g_format_size : Nat → String

/-- Expansion of the `%s` directives of a format, left to right, over
characters. No other directive occurs in the formats of this file. -/
def printf_chars : List Char → List String → List Char
  | [], _ => []
  | '%' :: 's' :: rest, a :: args => a.data ++ printf_chars rest args
  | c :: rest, args => c :: printf_chars rest args

/-- String formatter `g_strdup_printf (format, args...)` for `%s` arguments. -/
def g_strdup_printf (format : String) (args : List String) : String :=
  ⟨printf_chars format.data args⟩

/-- State of a `GtkLabel` that the row touches. -/
structure GtkLabel where
  label : String
  visible : Bool
  deriving DecidableEq, Repr

/-- Instance structure `struct _GtkNautilusPlacesViewRow`. Child widgets are
kept by the part of their state the file writes. The bit-field `is_network`
is `true` when its bit is set. -/
structure GtkNautilusPlacesViewRow where
  available_space_label : GtkLabel
  busy_spinner_visible : Bool
  eject_button_child_visible : Bool
  eject_button_tooltip_text : Option String
  eject_icon_name : Option String
  icon_image : Option String
  name_label : String
  path_label : String
  volume : Option GVolume
  mount : Option GMount
  file : Option GFile
  cancellable : Option GCancellable
  is_network : Bool
  deriving DecidableEq, Repr

/-- An outstanding `g_file_query_filesystem_info_async` call: its location,
attribute list and cancellable. The callback is always
`measure_available_space_finished` with the row as user data. -/
structure Query where
  file : GFile
  attributes : String
  cancellable : GCancellable
  deriving DecidableEq, Repr

/-- The row together with the part of the GIO and GLib state its code acts on:
the cancellables cancelled so far, the queries issued and not yet completed
(oldest first), the identity `g_cancellable_new` hands out next, and the
messages logged with `g_warning`. -/
structure State where
  row : GtkNautilusPlacesViewRow
  cancelled : List GCancellable
  pending : List Query
  next : GCancellable
  warnings : List String
  deriving DecidableEq, Repr

/-- Accessor `g_mount_get_root (mount)`; on a null mount the precondition check
`g_return_val_if_fail (G_IS_MOUNT (mount), NULL)` returns `NULL`. -/
def g_mount_get_root : Option GMount → Option GFile
  | none => none
  | some mount => some mount.root

/-- Accessor `g_volume_get_mount (volume)`. -/
def g_volume_get_mount (volume : GVolume) : Option GMount := volume.mount

/-- Call `g_cancellable_cancel (cancellable)`: nothing for `NULL` or for a
cancellable that is already cancelled. -/
def g_cancellable_cancel (cancellable : Option GCancellable)
    (cancelled : List GCancellable) : List GCancellable :=
  match cancellable with
  | none => cancelled
  | some c => if c ∈ cancelled then cancelled else c :: cancelled

/-- The attribute list passed to the query,
`G_FILE_ATTRIBUTE_FILESYSTEM_FREE "," G_FILE_ATTRIBUTE_FILESYSTEM_SIZE`. -/
def filesystem_attributes : String := "filesystem::free,filesystem::size"

/-- Value of `should_measure` in `measure_available_space`. -/
def should_measure (row : GtkNautilusPlacesViewRow) : Bool :=
  !row.is_network && (row.volume.isSome || row.mount.isSome || row.file.isSome)

/-- Value of the local `file` of `measure_available_space` when the test
`if (file)` is reached: the `if / else if / else if` chain of the source. In
the volume branch the source passes `row->mount`, not the local `mount`, to
`g_mount_get_root`. -/
def measure_available_space_file (row : GtkNautilusPlacesViewRow) : Option GFile :=
  match row.file with
  | some file => some file
  | none =>
    match row.mount with
    | some _ => g_mount_get_root row.mount
    | none =>
      match row.volume with
      | some volume =>
        match g_volume_get_mount volume with
        | some _ => g_mount_get_root row.mount
        | none => none
      | none => none

/-- Embedding of `measure_available_space (row)`. -/
def measure_available_space (s : State) : State :=
  let measure := should_measure s.row
  let row := { s.row with available_space_label := { label := "", visible := measure } }
  if measure then
    match measure_available_space_file row with
    | some file =>
      let cancelled := g_cancellable_cancel row.cancellable s.cancelled
      let fresh := s.next
      { s with
        row := { row with cancellable := some fresh }
        cancelled := cancelled
        next := s.next + 1
        pending := s.pending ++ [⟨file, filesystem_attributes, fresh⟩] }
    | none => { s with row := row }
  else { s with row := row }

/-- Embedding of `measure_available_space_finished`, the completion callback,
on the outcome of `g_file_query_filesystem_info_finish`. -/
def measure_available_space_finished (env : Env) (s : State) (res : QueryResult) : State :=
  match res with
  | QueryResult.error error =>
    if !g_error_matches error G_IO_ERROR G_IO_ERROR_CANCELLED &&
        !g_error_matches error G_IO_ERROR G_IO_ERROR_NOT_MOUNTED then
      { s with warnings := s.warnings ++
          [g_strdup_printf "Failed to measure available space: %s" [error.message]] }
    else s
  | QueryResult.info info =>
    match info.filesystem_free, info.filesystem_size with
    | some free_space, some total_space =>
      let formatted_free_size := env.g_format_size free_space
      let formatted_total_size := env.g_format_size total_space
      let label := g_strdup_printf (env.gettext "%s / %s available")
        [formatted_free_size, formatted_total_size]
      { s with row := { s.row with
          available_space_label := { s.row.available_space_label with label := label } } }
    | _, _ => s

/-- Integer read from the one-bit signed bit-field `gint is_network : 1`. -/
def is_network_field (bit : Bool) : Int := if bit then -1 else 0

/-- Integer value of a `gboolean` argument. -/
def gboolean_value (b : Bool) : Int := if b then 1 else 0

/-- Embedding of `gtk_nautilus_places_view_row_set_is_network`. -/
def gtk_nautilus_places_view_row_set_is_network (row : GtkNautilusPlacesViewRow)
    (is_network : Bool) : GtkNautilusPlacesViewRow :=
  if is_network_field row.is_network != gboolean_value is_network then
    { row with
      is_network := is_network
      eject_icon_name :=
        some (if is_network then "network-offline-symbolic" else "media-eject-symbolic")
      eject_button_tooltip_text := some (if is_network then "Disconnect" else "Unmount") }
  else row

/-- A property of the row with the value to set, one constructor per case of
the `switch` of `set_property`. -/
inductive Property where
  | icon (value : Option String)
  | name (value : String)
  | path (value : String)
  | volume (value : Option GVolume)
  | mount (value : Option GMount)
  | file (value : Option GFile)
  | is_network (value : Bool)
  deriving DecidableEq, Repr

/-- Embedding of `gtk_nautilus_places_view_row_set_property`. -/
def gtk_nautilus_places_view_row_set_property (s : State) : Property → State
  | Property.icon value => { s with row := { s.row with icon_image := value } }
  | Property.name value => { s with row := { s.row with name_label := value } }
  | Property.path value => { s with row := { s.row with path_label := value } }
  | Property.volume value => { s with row := { s.row with volume := value } }
  | Property.mount value =>
    measure_available_space
      { s with row := { s.row with mount := value, eject_button_child_visible := value.isSome } }
  | Property.file value =>
    measure_available_space { s with row := { s.row with file := value } }
  | Property.is_network value =>
    measure_available_space
      { s with row := gtk_nautilus_places_view_row_set_is_network s.row value }

/-- Embedding of `gtk_nautilus_places_view_row_init`: the instance memory is
zero-filled and `gtk_widget_init_template` supplies the child widgets, whose
state comes from the template `template`. -/
def gtk_nautilus_places_view_row_init (template : GtkNautilusPlacesViewRow) :
    GtkNautilusPlacesViewRow :=
  { template with
    volume := none, mount := none, file := none, cancellable := none, is_network := false }

/-- State right after a row is instantiated: nothing cancelled, no query
outstanding, nothing logged. -/
def initial (template : GtkNautilusPlacesViewRow) : State :=
  { row := gtk_nautilus_places_view_row_init template
    cancelled := [], pending := [], next := 0, warnings := [] }

/-- Outcome `g_file_query_filesystem_info_finish` reports for a query: a query
whose cancellable has been cancelled finishes with `G_IO_ERROR_CANCELLED`
whatever the operation produced (the cancellable check of `GTask`). -/
def g_file_query_filesystem_info_finish (s : State) (q : Query) (produced : QueryResult) :
    QueryResult :=
  if q.cancellable ∈ s.cancelled then
    QueryResult.error ⟨G_IO_ERROR, G_IO_ERROR_CANCELLED, "Operation was cancelled"⟩
  else produced

/-- What can happen to a row: a property is set, the setters of the public
interface are called, or the main loop delivers the completion of the
outstanding query at position `index`, the operation having produced
`produced`. -/
inductive Action where
  | set_property (p : Property)
  | set_is_network (is_network : Bool)
  | set_busy (is_busy : Bool)
  | finished (index : Nat) (produced : QueryResult)
  deriving DecidableEq, Repr

/-- One transition of the row. A completion for a position with no outstanding
query changes nothing. -/
def step (env : Env) (s : State) : Action → State
  | Action.set_property p => gtk_nautilus_places_view_row_set_property s p
  | Action.set_is_network b =>
    { s with row := gtk_nautilus_places_view_row_set_is_network s.row b }
  | Action.set_busy b => { s with row := { s.row with busy_spinner_visible := b } }
  | Action.finished index produced =>
    match s.pending.get? index with
    | none => s
    | some q =>
      measure_available_space_finished env { s with pending := s.pending.eraseIdx index }
        (g_file_query_filesystem_info_finish s q produced)

/-- The state after a sequence of actions. -/
def run (env : Env) (s : State) (actions : List Action) : State :=
  actions.foldl (step env) s

/-- The outstanding queries whose cancellable has not been cancelled. -/
def live (s : State) : List Query :=
  s.pending.filter (fun q => decide (q.cancellable ∉ s.cancelled))

/-- Bookkeeping invariant of the cancellables of a row: every identity in use
was handed out before `next`, outstanding queries carry pairwise different
cancellables, and the cancellable of an outstanding query is either cancelled
or the one the row holds. -/
structure Inv (s : State) : Prop where
  pending_lt : ∀ q ∈ s.pending, q.cancellable < s.next
  row_lt : ∀ c, s.row.cancellable = some c → c < s.next
  cancelled_lt : ∀ c ∈ s.cancelled, c < s.next
  nodup : (s.pending.map Query.cancellable).Nodup
  superseded : ∀ q ∈ s.pending,
    q.cancellable ∈ s.cancelled ∨ s.row.cancellable = some q.cancellable

/-- The location the probe is specified to use: the row's file if set,
otherwise the root of the row's mount if set, otherwise the root of the mount
attached to the row's volume. -/
def specified_location (row : GtkNautilusPlacesViewRow) : Option GFile :=
  match row.file, row.mount, row.volume with
  | some file, _, _ => some file
  | none, some mount, _ => some mount.root
  | none, none, some volume => volume.mount.map (fun m => m.root)
  | none, none, none => none

/-- Catalogue and formatter used in examples: messages are not translated and
a size is shown as its number of bytes. -/
def plain_env : Env := { gettext := fun msgid => msgid, g_format_size := fun n => toString n ++ " B" }

/-- Template used in examples: every child widget in its default state. -/
def blank_template : GtkNautilusPlacesViewRow :=
  { available_space_label := ⟨"", true⟩
    busy_spinner_visible := false
    eject_button_child_visible := true
    eject_button_tooltip_text := none
    eject_icon_name := none
    icon_image := none
    name_label := ""
    path_label := ""
    volume := none, mount := none, file := none, cancellable := none, is_network := false }

/-- A mount at `file:///media/usb`, used in examples. -/
def usb_mount : GMount := ⟨⟨"file:///media/usb"⟩⟩

/-- The property sets that give a row its volume and its mount, the two
properties `gtk_nautilus_places_view_row_new` passes: `volume`, then `mount`. -/
def volume_then_mount (volume : Option GVolume) (mount : Option GMount) :
    List Action :=
  [Action.set_property (Property.volume volume), Action.set_property (Property.mount mount)]

end PlacesViewRow

namespace DBusManager

/-- The D-Bus introspection document of the service, `introspection_xml`. -/
def introspection_xml : String :=
  "<node>" ++
  "  <interface name='org.gnome.Nautilus.FileOperations'>" ++
  "    <method name='CopyURIs'>" ++
  "      <arg type='as' name='URIList' direction='in'/>" ++
  "      <arg type='s' name='Destination' direction='in'/>" ++
  "    </method>" ++
  "  </interface>" ++
  "</node>"

/-- An argument of a method (`GDBusArgInfo`). -/
structure GDBusArgInfo where
  name : Option String
  signature : String
  deriving DecidableEq, Repr

/-- A method of an interface (`GDBusMethodInfo`). -/
structure GDBusMethodInfo where
  name : String
  in_args : List GDBusArgInfo
  out_args : List GDBusArgInfo
  deriving DecidableEq, Repr

/-- An interface (`GDBusInterfaceInfo`); signals and properties by name. -/
structure GDBusInterfaceInfo where
  name : String
  methods : List GDBusMethodInfo
  signals : List String
  properties : List String
  deriving DecidableEq, Repr

/-- A node of an introspection document (`GDBusNodeInfo`). -/
structure GDBusNodeInfo where
  path : Option String
  interfaces : List GDBusInterfaceInfo
  deriving DecidableEq, Repr

/-- A tag of an XML document: start tag, end tag or empty-element tag. -/
inductive Tag where
  | start (name : String) (attributes : List (String × String))
  | finish (name : String)
  | empty (name : String) (attributes : List (String × String))
  deriving DecidableEq, Repr

/-- Where the reader of the markup is: in text, in the name of a start tag,
in the name of an end tag, between the attributes of a tag, in an attribute
name, before the opening quote of a value, in a value, or after the `/` of an
empty-element tag. Characters read so far are kept in reverse. -/
inductive Mode where
  | text
  | name (acc : List Char)
  | close (acc : List Char)
  | attributes (element : String) (attrs : List (String × String))
  | key (element : String) (attrs : List (String × String)) (acc : List Char)
  | quote (element : String) (attrs : List (String × String)) (key : String)
  | value (element : String) (attrs : List (String × String)) (key : String) (q : Char)
      (acc : List Char)
  | slash (element : String) (attrs : List (String × String))

/-- The tags of a markup document, in order; text between tags is skipped, as
the introspection reader installs no text handler. `none` when the document
ends inside a tag or a tag is malformed. `tags` holds the tags read so far in
reverse. -/
def markup_tags (mode : Mode) (cs : List Char) (tags : List Tag) : Option (List Tag) :=
  match cs with
  | [] =>
    match mode with
    | Mode.text => some tags.reverse
    | _ => none
  | c :: rest =>
    match mode with
    | Mode.text =>
      if c = '<' then markup_tags (Mode.name []) rest tags else markup_tags Mode.text rest tags
    | Mode.name acc =>
      if c = '/' then
        (if acc = [] then markup_tags (Mode.close []) rest tags
         else markup_tags (Mode.slash ⟨acc.reverse⟩ []) rest tags)
      else if c = '>' then
        (if acc = [] then none
         else markup_tags Mode.text rest (Tag.start ⟨acc.reverse⟩ [] :: tags))
      else if c.isWhitespace then
        (if acc = [] then none else markup_tags (Mode.attributes ⟨acc.reverse⟩ []) rest tags)
      else markup_tags (Mode.name (c :: acc)) rest tags
    | Mode.close acc =>
      if c = '>' then
        (if acc = [] then none else markup_tags Mode.text rest (Tag.finish ⟨acc.reverse⟩ :: tags))
      else if c.isWhitespace then markup_tags (Mode.close acc) rest tags
      else markup_tags (Mode.close (c :: acc)) rest tags
    | Mode.attributes element attrs =>
      if c = '>' then markup_tags Mode.text rest (Tag.start element attrs :: tags)
      else if c = '/' then markup_tags (Mode.slash element attrs) rest tags
      else if c.isWhitespace then markup_tags (Mode.attributes element attrs) rest tags
      else markup_tags (Mode.key element attrs [c]) rest tags
    | Mode.key element attrs acc =>
      if c = '=' then markup_tags (Mode.quote element attrs ⟨acc.reverse⟩) rest tags
      else if c.isWhitespace || c = '>' || c = '/' then none
      else markup_tags (Mode.key element attrs (c :: acc)) rest tags
    | Mode.quote element attrs key =>
      if c = '\'' || c = '"' then markup_tags (Mode.value element attrs key c []) rest tags
      else none
    | Mode.value element attrs key q acc =>
      if c = q then
        markup_tags (Mode.attributes element (attrs ++ [(key, ⟨acc.reverse⟩)])) rest tags
      else markup_tags (Mode.value element attrs key q (c :: acc)) rest tags
    | Mode.slash element attrs =>
      if c = '>' then markup_tags Mode.text rest (Tag.empty element attrs :: tags) else none

/-- Value of the attribute `key` of a tag, if it has one. -/
def attribute_value (attrs : List (String × String)) (key : String) : Option String :=
  (attrs.find? (fun kv => kv.1 == key)).map (fun kv => kv.2)

/-- State of the reader of an introspection document: the interfaces read so
far, the interface and the method being read, the elements that are open
(innermost first), the `name` attribute of the root node, and whether the root
node has been closed. -/
structure Reading where
  interfaces : List GDBusInterfaceInfo
  interface : Option GDBusInterfaceInfo
  method : Option GDBusMethodInfo
  open_elements : List String
  path : Option String
  closed : Bool
  deriving DecidableEq, Repr

/-- An argument element read inside a method: the `direction` defaults to
`in`, the `type` is required. -/
def read_arg (r : Reading) (attrs : List (String × String)) : Option Reading :=
  match r.method, attribute_value attrs "type" with
  | some m, some signature =>
    let arg : GDBusArgInfo := ⟨attribute_value attrs "name", signature⟩
    match attribute_value attrs "direction" with
    | none => some { r with method := some { m with in_args := m.in_args ++ [arg] } }
    | some direction =>
      if direction = "in" then
        some { r with method := some { m with in_args := m.in_args ++ [arg] } }
      else if direction = "out" then
        some { r with method := some { m with out_args := m.out_args ++ [arg] } }
      else none
  | _, _ => none

/-- The element `name` with attributes `attrs` opens; `r` is the state before. -/
def read_start (r : Reading) (name : String) (attrs : List (String × String)) :
    Option Reading :=
  if r.closed then none
  else
    match r.open_elements with
    | [] =>
      if name = "node" then
        some { r with open_elements := ["node"], path := attribute_value attrs "name" }
      else none
    | top :: _ =>
      if top = "node" && name = "interface" then
        (attribute_value attrs "name").map fun n =>
          { r with interface := some ⟨n, [], [], []⟩, open_elements := name :: r.open_elements }
      else if top = "interface" && name = "method" then
        (attribute_value attrs "name").map fun n =>
          { r with method := some ⟨n, [], []⟩, open_elements := name :: r.open_elements }
      else if top = "interface" && name = "signal" then
        match r.interface, attribute_value attrs "name" with
        | some i, some n =>
          some { r with interface := some { i with signals := i.signals ++ [n] }
                        open_elements := name :: r.open_elements }
        | _, _ => none
      else if top = "interface" && name = "property" then
        match r.interface, attribute_value attrs "name" with
        | some i, some n =>
          some { r with interface := some { i with properties := i.properties ++ [n] }
                        open_elements := name :: r.open_elements }
        | _, _ => none
      else if top = "method" && name = "arg" then
        (read_arg r attrs).map fun r2 => { r2 with open_elements := name :: r.open_elements }
      else if top = "signal" && name = "arg" then
        some { r with open_elements := name :: r.open_elements }
      else none

/-- The element `name` closes. -/
def read_finish (r : Reading) (name : String) : Option Reading :=
  match r.open_elements with
  | [] => none
  | top :: below =>
    if top ≠ name then none
    else if name = "method" then
      match r.interface, r.method with
      | some i, some m =>
        some { r with interface := some { i with methods := i.methods ++ [m] }
                      method := none, open_elements := below }
      | _, _ => none
    else if name = "interface" then
      match r.interface with
      | some i =>
        some { r with interfaces := r.interfaces ++ [i], interface := none
                      open_elements := below }
      | none => none
    else if name = "node" then some { r with open_elements := below, closed := true }
    else some { r with open_elements := below }

/-- One tag of the document. -/
def read_tag (r : Reading) : Tag → Option Reading
  | Tag.start name attrs => read_start r name attrs
  | Tag.finish name => read_finish r name
  | Tag.empty name attrs => (read_start r name attrs).bind fun r2 => read_finish r2 name

/-- The tags of a document, one after the other. -/
def read_tags : Reading → List Tag → Option Reading
  | r, [] => some r
  | r, tag :: rest => (read_tag r tag).bind fun r2 => read_tags r2 rest

/-- Model of `g_dbus_node_info_new_for_xml` on documents made of the elements
`node`, `interface`, `method`, `signal`, `property` and `arg`: the node
description, or `none` where the library sets the error. Nested nodes and
annotations are rejected. -/
def g_dbus_node_info_new_for_xml (xml_data : String) : Option GDBusNodeInfo :=
  match markup_tags Mode.text xml_data.data [] with
  | none => none
  | some tags =>
    match read_tags ⟨[], none, none, [], none, false⟩ tags with
    | some r => if r.closed && r.open_elements = [] then some ⟨r.path, r.interfaces⟩ else none
    | none => none

end DBusManager

namespace DBusManager

/-- Identity of a `GDBusConnection`. -/
abbrev GDBusConnection := Nat

/-- The buses of `GBusType`. -/
inductive GBusType where
  | G_BUS_TYPE_STARTER
  | G_BUS_TYPE_NONE
  | G_BUS_TYPE_SYSTEM
  | G_BUS_TYPE_SESSION
  deriving DecidableEq, Repr

/-- Instance structure `struct _NautilusDBusManager`; the two `guint`
identifiers are `0` when unset. -/
structure NautilusDBusManager where
  connection : Option GDBusConnection
  owner_id : Nat
  registration_id : Nat
  deriving DecidableEq, Repr

/-- Calls the manager makes on the bus over its life. -/
inductive BusCall where
  /-- `g_bus_own_name (bus_type, name, flags, bus_acquired_handler_cb, NULL, NULL, self, NULL)`. -/
  | g_bus_own_name (bus_type : GBusType) (name : String) (flags : Nat)
  /-- `g_bus_unown_name (owner_id)`. -/
  | g_bus_unown_name (owner_id : Nat)
  /-- `g_dbus_connection_register_object (conn, object_path, interface_info,
  &interface_vtable, self, NULL, &error)`; the vtable's only entry is
  `handle_method_call`. -/
  | g_dbus_connection_register_object (connection : GDBusConnection) (object_path : String)
      (interface_info : Option GDBusInterfaceInfo)
  /-- `g_dbus_connection_unregister_object (connection, registration_id)`. -/
  | g_dbus_connection_unregister_object (connection : Option GDBusConnection)
      (registration_id : Nat)
  /-- `g_warning (format, message)`. -/
  | g_warning (format : String) (message : String)
  deriving DecidableEq, Repr

/-- Flag value `G_BUS_NAME_OWNER_FLAGS_NONE`. -/
def G_BUS_NAME_OWNER_FLAGS_NONE : Nat := 0

/-- Embedding of `nautilus_dbus_manager_dispose`: the instance afterwards and
the calls made. The parent class's `dispose` touches none of the fields. -/
def nautilus_dbus_manager_dispose (self : NautilusDBusManager) :
    NautilusDBusManager × List BusCall :=
  let unregister :=
    if self.registration_id ≠ 0 then
      [BusCall.g_dbus_connection_unregister_object self.connection self.registration_id]
    else []
  let self1 := if self.registration_id ≠ 0 then { self with registration_id := 0 } else self
  let unown := if self1.owner_id ≠ 0 then [BusCall.g_bus_unown_name self1.owner_id] else []
  let self2 := if self1.owner_id ≠ 0 then { self1 with owner_id := 0 } else self1
  ({ self2 with connection := none }, unregister ++ unown)

/-- Embedding of `nautilus_dbus_manager_init` on the zero-filled instance;
`owner_id` is the identifier `g_bus_own_name` returns. -/
def nautilus_dbus_manager_init (owner_id : Nat) : NautilusDBusManager × List BusCall :=
  ({ connection := none, owner_id := owner_id, registration_id := 0 },
   [BusCall.g_bus_own_name GBusType.G_BUS_TYPE_SESSION "org.gnome.Nautilus"
     G_BUS_NAME_OWNER_FLAGS_NONE])

/-- Embedding of `bus_acquired_handler_cb`. `parse` stands for
`g_dbus_node_info_new_for_xml`, which yields the node description or, with
`none`, sets the error; `registered` is what
`g_dbus_connection_register_object` returns: the registration identifier, or
`none` when it sets the error and returns `0`. `error_message` is the message
of whichever error is set. -/
def bus_acquired_handler_cb (parse : String → Option GDBusNodeInfo)
    (registered : Option Nat) (error_message : String)
    (self : NautilusDBusManager) (conn : GDBusConnection) :
    NautilusDBusManager × List BusCall :=
  let self := { self with connection := some conn }
  match parse introspection_xml with
  | none =>
    ({ self with owner_id := 0 },
     [BusCall.g_warning "Error parsing the FileOperations XML interface: %s" error_message,
      BusCall.g_bus_unown_name self.owner_id])
  | some introspection_data =>
    let call := BusCall.g_dbus_connection_register_object conn "/org/gnome/Nautilus"
      introspection_data.interfaces.head?
    match registered with
    | some id => ({ self with registration_id := id }, [call])
    | none =>
      ({ self with registration_id := 0 },
       [call,
        BusCall.g_warning "Error registering the FileOperations proxy on the bus: %s"
          error_message,
        BusCall.g_bus_unown_name self.owner_id])

/-- The part of the process the manager lives in: the static `singleton`
(the identity of the object it points to, `none` for `NULL`), the manager
objects created and not yet disposed, the identities `g_object_new` and
`g_bus_own_name` hand out next, and the calls made on the bus so far. -/
structure Process where
  singleton : Option Nat
  objects : List (Nat × NautilusDBusManager)
  next_object : Nat
  next_owner_id : Nat
  calls : List BusCall
  deriving DecidableEq, Repr

/-- Embedding of `nautilus_dbus_manager_start`: `g_object_new` creates an
object, runs `nautilus_dbus_manager_init` on it, and the result is stored in
`singleton` over whatever it held. -/
def nautilus_dbus_manager_start (p : Process) : Process :=
  let created := nautilus_dbus_manager_init p.next_owner_id
  { singleton := some p.next_object
    objects := p.objects ++ [(p.next_object, created.1)]
    next_object := p.next_object + 1
    next_owner_id := p.next_owner_id + 1
    calls := p.calls ++ created.2 }

/-- Embedding of `nautilus_dbus_manager_stop`: `g_clear_object (&singleton)`
does nothing on `NULL`; otherwise it clears the pointer and drops the only
reference to the object, which is disposed. -/
def nautilus_dbus_manager_stop (p : Process) : Process :=
  match p.singleton with
  | none => p
  | some object =>
    match p.objects.find? (fun o => o.1 == object) with
    | none => { p with singleton := none }
    | some o =>
      { p with
        singleton := none
        objects := p.objects.filter (fun x => x.1 != object)
        calls := p.calls ++ (nautilus_dbus_manager_dispose o.2).2 }

/-- A call of the public interface of the manager. -/
inductive Call where
  | start
  | stop
  deriving DecidableEq, Repr

/-- One call of the public interface. -/
def call (p : Process) : Call → Process
  | Call.start => nautilus_dbus_manager_start p
  | Call.stop => nautilus_dbus_manager_stop p

/-- The process before any call: no manager object; `g_bus_own_name` never
returns `0`. -/
def boot : Process :=
  { singleton := none, objects := [], next_object := 0, next_owner_id := 1, calls := [] }

/-- The states a sequence of calls goes through, the starting state first. -/
def trajectory : Process → List Call → List Process
  | p, [] => [p]
  | p, c :: rest => p :: trajectory (call p c) rest

/-- A sequence of calls in which `nautilus_dbus_manager_start` is only called
while `singleton` is `NULL`. -/
def starts_when_absent : Process → List Call → Bool
  | _, [] => true
  | p, Call.start :: rest => p.singleton.isNone && starts_when_absent (call p Call.start) rest
  | p, Call.stop :: rest => starts_when_absent (call p Call.stop) rest

end DBusManager

namespace EmptyView

/-- Modelled from the spec: the enumeration `NautilusCanvasZoomLevel` is
declared in a header that is not among the sources; the file names only the
level `NAUTILUS_CANVAS_ZOOM_LEVEL_STANDARD`, every other level is `other`. -/
inductive NautilusCanvasZoomLevel where
  | NAUTILUS_CANVAS_ZOOM_LEVEL_STANDARD
  | other (level : Nat)
  deriving DecidableEq, Repr

/-- Identity of a `NautilusFile`. -/
abbrev NautilusFile := Nat

/-- Value of a C `int` after an arithmetic step, wrapped to 32 bits. -/
def int_wrap (n : Int) : Int := (n + 2147483648) % 4294967296 - 2147483648

/-- The view: `struct NautilusEmptyViewDetails`, and the number of calls of
`nautilus_files_view_notify_selection_changed` made on it. The timer and the
cumulated loading time of `add_file`, which only feed a log message, are left
out. -/
structure NautilusEmptyView where
  number_of_files : Int
  selection_changed_notifications : Nat
  deriving DecidableEq, Repr

/-- Embedding of `nautilus_empty_view_add_file`. -/
def nautilus_empty_view_add_file (view : NautilusEmptyView) (_file : NautilusFile) :
    NautilusEmptyView :=
  { view with number_of_files := int_wrap (view.number_of_files + 1) }

/-- Embedding of `nautilus_empty_view_remove_file`; `none` when `g_assert`
fails and aborts the program. -/
def nautilus_empty_view_remove_file (view : NautilusEmptyView) (_file : NautilusFile) :
    Option NautilusEmptyView :=
  let view := { view with number_of_files := int_wrap (view.number_of_files - 1) }
  if view.number_of_files ≥ 0 then some view else none

/-- Embedding of `nautilus_empty_view_get_selection`: `NULL`, the empty list. -/
def nautilus_empty_view_get_selection (_view : NautilusEmptyView) : List NautilusFile := []

/-- Embedding of `nautilus_empty_view_get_selection_for_file_transfer`. -/
def nautilus_empty_view_get_selection_for_file_transfer (_view : NautilusEmptyView) :
    List NautilusFile := []

/-- Embedding of `nautilus_empty_view_set_selection`. -/
def nautilus_empty_view_set_selection (view : NautilusEmptyView)
    (_selection : List NautilusFile) : NautilusEmptyView :=
  { view with selection_changed_notifications := view.selection_changed_notifications + 1 }

/-- Embedding of `nautilus_empty_view_select_all`. -/
def nautilus_empty_view_select_all (view : NautilusEmptyView) : NautilusEmptyView := view

/-- Embedding of `nautilus_empty_view_bump_zoom_level`. -/
def nautilus_empty_view_bump_zoom_level (view : NautilusEmptyView) (_zoom_increment : Int) :
    NautilusEmptyView := view

/-- Embedding of `nautilus_empty_view_get_zoom_level`. -/
def nautilus_empty_view_get_zoom_level (_view : NautilusEmptyView) : NautilusCanvasZoomLevel :=
  NautilusCanvasZoomLevel.NAUTILUS_CANVAS_ZOOM_LEVEL_STANDARD

/-- Embedding of `nautilus_empty_view_zoom_to_level`. -/
def nautilus_empty_view_zoom_to_level (view : NautilusEmptyView)
    (_zoom_level : NautilusCanvasZoomLevel) : NautilusEmptyView := view

/-- Embedding of `nautilus_empty_view_restore_default_zoom_level`. -/
def nautilus_empty_view_restore_default_zoom_level (view : NautilusEmptyView) :
    NautilusEmptyView := view

/-- Embedding of `nautilus_empty_view_can_zoom_in`. -/
def nautilus_empty_view_can_zoom_in (_view : NautilusEmptyView) : Bool := false

/-- Embedding of `nautilus_empty_view_can_zoom_out`. -/
def nautilus_empty_view_can_zoom_out (_view : NautilusEmptyView) : Bool := false

/-- Embedding of `nautilus_empty_view_using_manual_layout`. -/
def nautilus_empty_view_using_manual_layout (_view : NautilusEmptyView) : Bool := false

/-- A call of one of the virtual methods that change or might change the view. -/
inductive Call where
  | add_file (file : NautilusFile)
  | remove_file (file : NautilusFile)
  | set_selection (selection : List NautilusFile)
  | select_all
  | zoom_to_level (zoom_level : NautilusCanvasZoomLevel)
  | bump_zoom_level (zoom_increment : Int)
  | restore_default_zoom_level
  deriving DecidableEq, Repr

/-- One call; `none` when the program aborts in it. -/
def call (view : NautilusEmptyView) : Call → Option NautilusEmptyView
  | Call.add_file file => some (nautilus_empty_view_add_file view file)
  | Call.remove_file file => nautilus_empty_view_remove_file view file
  | Call.set_selection selection => some (nautilus_empty_view_set_selection view selection)
  | Call.select_all => some (nautilus_empty_view_select_all view)
  | Call.zoom_to_level zoom_level => some (nautilus_empty_view_zoom_to_level view zoom_level)
  | Call.bump_zoom_level zoom_increment =>
    some (nautilus_empty_view_bump_zoom_level view zoom_increment)
  | Call.restore_default_zoom_level =>
    some (nautilus_empty_view_restore_default_zoom_level view)

/-- A sequence of calls; `none` when the program aborts in one of them. -/
def run : NautilusEmptyView → List Call → Option NautilusEmptyView
  | view, [] => some view
  | view, c :: rest => (call view c).bind fun v => run v rest

/-- The calls that are selection or zoom operations. -/
def Call.is_selection_or_zoom : Call → Bool
  | Call.add_file _ => false
  | Call.remove_file _ => false
  | _ => true

end EmptyView

namespace PlacesView

/-- Accessor `g_file_get_uri (file)`: the URI of a location. -/
def g_file_get_uri (file : GFile) : String := file.uri

/-- Result of `g_strcmp0 (str1, str2)`: zero for equal strings (two null
pointers included), negative or positive by the order of the strings, a null
pointer coming first. -/
def g_strcmp0 (str1 str2 : Option String) : Int :=
  match str1, str2 with
  | none, none => 0
  | none, some _ => -1
  | some _, none => 1
  | some a, some b => if a = b then 0 else if a < b then -1 else 1

/-- The C operator `!` on an `int`. -/
def logical_not (x : Int) : Int := if x = 0 then 1 else 0

/-- A `NautilusQuery`, by the text `nautilus_query_get_text` returns for it. -/
structure NautilusQuery where
  text : Option String
  deriving DecidableEq, Repr

/-- Private data `NautilusPlacesViewPrivate`. The icon is kept by its name, the
places widget by the search text last passed to it. -/
structure NautilusPlacesViewPrivate where
  location : Option GFile
  icon : Option String
  search_query : Option NautilusQuery
  places_view_search_query : Option String
  deriving DecidableEq, Repr

/-- Calls of the view into the application. -/
inductive Event where
  /-- `nautilus_application_open_location_full (app, location, 0, NULL, NULL, NULL)`. -/
  | nautilus_application_open_location_full (location : GFile)
  deriving DecidableEq, Repr

/-- Embedding of `nautilus_places_view_init`. -/
def nautilus_places_view_init : NautilusPlacesViewPrivate :=
  { location := some (g_file_new_for_uri "other-locations:///")
    icon := some "view-list-symbolic"
    search_query := none
    places_view_search_query := none }

/-- Embedding of `nautilus_places_view_get_location`. -/
def nautilus_places_view_get_location (priv : NautilusPlacesViewPrivate) : Option GFile :=
  priv.location

/-- Embedding of `nautilus_places_view_set_location`: the view afterwards and
the calls made. The test of the source is `!g_strcmp0 (uri, ...) == 0`, in
which `!` applies before `==`. -/
def nautilus_places_view_set_location (priv : NautilusPlacesViewPrivate)
    (location : Option GFile) : NautilusPlacesViewPrivate × List Event :=
  match location with
  | none => (priv, [])
  | some location =>
    let uri := g_file_get_uri location
    if logical_not (g_strcmp0 (some uri) (some "other-locations:///")) = 0 then
      (priv, [Event.nautilus_application_open_location_full location])
    else ({ priv with location := some location }, [])

/-- Embedding of `nautilus_places_view_set_search_query`. -/
def nautilus_places_view_set_search_query (priv : NautilusPlacesViewPrivate)
    (query : Option NautilusQuery) : NautilusPlacesViewPrivate :=
  let text := match query with
    | some q => q.text
    | none => none
  { priv with search_query := query, places_view_search_query := text }

/-- Embedding of `nautilus_places_view_set_selection`, a stub. -/
def nautilus_places_view_set_selection (priv : NautilusPlacesViewPrivate)
    (_selection : List Nat) : NautilusPlacesViewPrivate := priv

/-- A call of one of the setters of the view interface. -/
inductive Call where
  | set_location (location : Option GFile)
  | set_search_query (query : Option NautilusQuery)
  | set_selection (selection : List Nat)
  deriving DecidableEq, Repr

/-- One call of a setter; the calls into the application are dropped. -/
def call (priv : NautilusPlacesViewPrivate) : Call → NautilusPlacesViewPrivate
  | Call.set_location location => (nautilus_places_view_set_location priv location).1
  | Call.set_search_query query => nautilus_places_view_set_search_query priv query
  | Call.set_selection selection => nautilus_places_view_set_selection priv selection

/-- The view after a sequence of setter calls on a new view. -/
def run (calls : List Call) : NautilusPlacesViewPrivate :=
  calls.foldl call nautilus_places_view_init

end PlacesView

namespace PreferencesWindow

/-- A `NautilusColumn`, by its properties `name` and `label`. -/
structure NautilusColumn where
  name : String
  label : String
  deriving DecidableEq, Repr

/-- A `GtkComboBoxText` of the captions page: the texts of its entries, the
array attached to it under the key `column_names` (`none` when no data is
attached), and the index of the active entry (`-1` for none). -/
structure GtkComboBoxText where
  items : List String
  column_names : Option (List String)
  active : Int
  deriving DecidableEq, Repr

/-- The `for` loop of `create_icon_caption_combo_box_items` over the columns
still to visit, with the entries and the array built so far. -/
def create_icon_caption_combo_box_items_loop :
    List NautilusColumn → List String → List String → List String × List String
  | [], items, column_names => (items, column_names)
  | column :: rest, items, column_names =>
    if column.name = "name" then
      create_icon_caption_combo_box_items_loop rest items column_names
    else
      create_icon_caption_combo_box_items_loop rest (items ++ [column.label])
        (column_names ++ [column.name])

/-- Embedding of `create_icon_caption_combo_box_items (combo_box, columns)`;
`gettext` is the message catalogue behind `_()`. -/
def create_icon_caption_combo_box_items (gettext : String → String)
    (combo_box : GtkComboBoxText) (columns : List NautilusColumn) : GtkComboBoxText :=
  let r := create_icon_caption_combo_box_items_loop columns
    (combo_box.items ++ [gettext "None"]) ["none"]
  { combo_box with items := r.1, column_names := some r.2 }

/-- A combo box as the interface description declares it: no entry, no data
attached, no active entry. -/
def empty_combo_box : GtkComboBoxText := { items := [], column_names := none, active := -1 }

end PreferencesWindow

namespace DBusManager

/-- The calls of one life of a manager: `nautilus_dbus_manager_init`, then the
bus is acquired and `bus_acquired_handler_cb` runs, then
`nautilus_dbus_manager_dispose`. `owner_id` is what `g_bus_own_name` returns,
`parse` and `registered` are the outcomes of reading the introspection document
and of registering the object. -/
def lifecycle (parse : String → Option GDBusNodeInfo) (registered : Option Nat)
    (error_message : String) (owner_id : Nat) (conn : GDBusConnection) : List BusCall :=
  let created := nautilus_dbus_manager_init owner_id
  let acquired := bus_acquired_handler_cb parse registered error_message created.1 conn
  let disposed := nautilus_dbus_manager_dispose acquired.1
  created.2 ++ acquired.2 ++ disposed.2

/-- How many times a trace releases the name held under `owner_id`
(`g_bus_unown_name (owner_id)`). -/
def releases (owner_id : Nat) (calls : List BusCall) : Nat :=
  calls.count (BusCall.g_bus_unown_name owner_id)

end DBusManager

namespace FloatingBar

/-- The alignments of `GtkAlign`. -/
inductive GtkAlign where
  | GTK_ALIGN_FILL
  | GTK_ALIGN_START
  | GTK_ALIGN_END
  | GTK_ALIGN_CENTER
  | GTK_ALIGN_BASELINE
  deriving DecidableEq, Repr

/-- What a child widget of the bar is. -/
inductive ChildKind where
  | spinner
  | labels_box
  | button (icon_name : Option String)
  deriving DecidableEq, Repr

/-- A child of the bar with the pointer stored on it under the key
`action-id`, as an integer; `0` is the null pointer, which is also what
`g_object_get_data` returns when nothing is stored. -/
structure Child where
  kind : ChildKind
  action_id : Int
  deriving DecidableEq, Repr

/-- The text and the visibility of a label widget. -/
structure LabelWidget where
  text : String
  visible : Bool
  deriving DecidableEq, Repr

/-- The bar: `struct _NautilusFloatingBarDetails` with its label widgets by
their state, and from the widget itself its children in the order of
`gtk_container_get_children`, its horizontal alignment, its window, the
properties notified so far and the number of resizes queued. -/
structure NautilusFloatingBar where
  primary_label : Option String
  details_label : Option String
  primary_label_widget : LabelWidget
  details_label_widget : LabelWidget
  spinner_visible : Bool
  show_spinner : Bool
  is_interactive : Bool
  children : List Child
  halign : GtkAlign
  window : Option Nat
  notifications : List String
  resizes_queued : Nat
  deriving DecidableEq, Repr

/-- The macro `GINT_TO_POINTER`: the integer as a pointer value. -/
def GINT_TO_POINTER (i : Int) : Int := i

/-- The bar after `nautilus_floating_bar_init` and
`nautilus_floating_bar_constructed`: zero-filled private data, a spinner and
the box of the two labels as children, both labels shown and empty, the
default alignment of a widget. -/
def nautilus_floating_bar_constructed : NautilusFloatingBar :=
  { primary_label := none
    details_label := none
    primary_label_widget := ⟨"", true⟩
    details_label_widget := ⟨"", true⟩
    spinner_visible := false
    show_spinner := false
    is_interactive := false
    children := [⟨ChildKind.spinner, 0⟩, ⟨ChildKind.labels_box, 0⟩]
    halign := GtkAlign.GTK_ALIGN_FILL
    window := none
    notifications := []
    resizes_queued := 0 }

/-- Length `strlen (s)` of a string. -/
def strlen (s : String) : Nat := s.utf8ByteSize

/-- Embedding of `update_labels`; `gtk_label_set_text` with a null string
empties the label. -/
def update_labels (self : NautilusFloatingBar) : NautilusFloatingBar :=
  let primary_visible := match self.primary_label with
    | some label => decide (strlen label > 0)
    | none => false
  let details_visible := match self.details_label with
    | some label => decide (strlen label > 0)
    | none => false
  { self with
    primary_label_widget := ⟨self.primary_label.getD "", primary_visible⟩
    details_label_widget := ⟨self.details_label.getD "", details_visible⟩ }

/-- Embedding of `nautilus_floating_bar_set_primary_label`. -/
def nautilus_floating_bar_set_primary_label (self : NautilusFloatingBar)
    (label : Option String) : NautilusFloatingBar :=
  if PlacesView.g_strcmp0 self.primary_label label ≠ 0 then
    update_labels { self with
      primary_label := label
      notifications := self.notifications ++ ["primary-label"] }
  else self

/-- Embedding of `nautilus_floating_bar_set_details_label`. -/
def nautilus_floating_bar_set_details_label (self : NautilusFloatingBar)
    (label : Option String) : NautilusFloatingBar :=
  if PlacesView.g_strcmp0 self.details_label label ≠ 0 then
    update_labels { self with
      details_label := label
      notifications := self.notifications ++ ["details-label"] }
  else self

/-- Embedding of `overlay_enter_notify_cb` for the window of the event: the
value returned and the bar afterwards. -/
def overlay_enter_notify_cb (self : NautilusFloatingBar) (event_window : Option Nat) :
    Bool × NautilusFloatingBar :=
  if event_window ≠ self.window then (false, self)
  else if self.is_interactive then (false, self)
  else
    let halign :=
      if self.halign = GtkAlign.GTK_ALIGN_START then GtkAlign.GTK_ALIGN_END
      else GtkAlign.GTK_ALIGN_START
    (false, { self with halign := halign, resizes_queued := self.resizes_queued + 1 })

/-- Embedding of `nautilus_floating_bar_add_action`: the new button is packed
into the bar and carries `GINT_TO_POINTER (action_id)` under `action-id`. -/
def nautilus_floating_bar_add_action (self : NautilusFloatingBar) (icon_name : Option String)
    (action_id : Int) : NautilusFloatingBar :=
  { self with
    children := self.children ++ [⟨ChildKind.button icon_name, GINT_TO_POINTER action_id⟩]
    is_interactive := true }

/-- Embedding of `nautilus_floating_bar_cleanup_actions`: a child is destroyed,
and so leaves the bar, when the pointer under `action-id` is not null. -/
def nautilus_floating_bar_cleanup_actions (self : NautilusFloatingBar) : NautilusFloatingBar :=
  { self with
    children := self.children.filter (fun widget => widget.action_id == 0)
    is_interactive := false }

/-- The bar after a sequence of `nautilus_floating_bar_add_action` calls, each
given by its icon name and its action identifier. -/
def add_actions (self : NautilusFloatingBar) (actions : List (Option String × Int)) :
    NautilusFloatingBar :=
  actions.foldl (fun bar a => nautilus_floating_bar_add_action bar a.1 a.2) self

/-- The children of a bar that are buttons. -/
def buttons (self : NautilusFloatingBar) : List Child :=
  self.children.filter fun widget =>
    match widget.kind with
    | ChildKind.button _ => true
    | _ => false

end FloatingBar

namespace EmptyView

end EmptyView

namespace PreferencesWindow

/-- The table `thumbnail_limit_values`. -/
def thumbnail_limit_values : List Nat :=
  [102400, 512000, 1048576, 3145728, 5242880,
   10485760, 104857600, 1073741824, 2147483648, 4294967295]

/-- The structure `UIntEnumBinding`: a table and the number of its entries. -/
structure UIntEnumBinding where
  values : List Nat
  n_values : Nat
  deriving DecidableEq, Repr

/-- The `for` loop of `uint_enum_get_mapping` over the entries from index `i`
on: the first index whose entry is at least `v`. -/
def uint_enum_get_mapping_loop (v : Nat) : List Nat → Nat → Option Nat
  | [], _ => none
  | value :: rest, i => if value ≥ v then some i else uint_enum_get_mapping_loop v rest (i + 1)

/-- Embedding of `uint_enum_get_mapping` on the stored value `v`: `some i`
when it sets the index `i` and returns `TRUE`, `none` when it returns
`FALSE`. -/
def uint_enum_get_mapping (binding : UIntEnumBinding) (v : Nat) : Option Nat :=
  uint_enum_get_mapping_loop v (binding.values.take binding.n_values) 0

/-- Embedding of `uint_enum_set_mapping` on the index of the active entry: the
value to store; `none` for an index outside the table, where the read is
undefined. -/
def uint_enum_set_mapping (binding : UIntEnumBinding) (index : Int) : Option Nat :=
  if 0 ≤ index then binding.values[index.toNat]? else none

/-- The binding `bind_builder_uint_enum` builds for the thumbnail limit, with
`G_N_ELEMENTS (thumbnail_limit_values)` entries. -/
def thumbnail_limit_binding : UIntEnumBinding :=
  { values := thumbnail_limit_values, n_values := 10 }

/-- The table `speed_tradeoff_values`. -/
def speed_tradeoff_values : List String := ["local-only", "always", "never"]

/-- The table `click_behavior_components`. -/
def click_behavior_components : List String :=
  ["single_click_radiobutton", "double_click_radiobutton"]

/-- The table `click_behavior_values`. -/
def click_behavior_values : List String := ["single", "double"]

/-- The table `executable_text_components`. -/
def executable_text_components : List String :=
  ["scripts_execute_radiobutton", "scripts_view_radiobutton", "scripts_confirm_radiobutton"]

/-- The table `executable_text_values`. -/
def executable_text_values : List String := ["launch", "display", "ask"]

/-- The table `recursive_search_components`. -/
def recursive_search_components : List String :=
  ["search_recursive_only_this_computer_radiobutton",
   "search_recursive_all_locations_radiobutton", "search_recursive_never_radiobutton"]

/-- The table `thumbnails_components`. -/
def thumbnails_components : List String :=
  ["thumbnails_only_this_computer_radiobutton", "thumbnails_all_files_radiobutton",
   "thumbnails_never_radiobutton"]

/-- The table `count_components`. -/
def count_components : List String :=
  ["count_only_this_computer_radiobutton", "count_all_files_radiobutton",
   "count_never_radiobutton"]

/-- Embedding of `radio_mapping_get` for the stored string `value` and the
string `widget_value` of the button: the value returned and the boolean set. -/
def radio_mapping_get (value : String) (widget_value : Option String) : Bool × Bool :=
  if PlacesView.g_strcmp0 (some value) widget_value = 0 then (true, true) else (true, false)

/-- The `for` loop of `bind_builder_radio` from index `i` on: each widget name
is bound with `values[i]` as the user data of its mapping; reading the
terminator of `values` gives `none`. -/
def bind_builder_radio_loop (values : List String) :
    List String → Nat → List (String × Option String)
  | [], _ => []
  | widget_name :: rest, i => (widget_name, values[i]?) :: bind_builder_radio_loop values rest (i + 1)

/-- Embedding of `bind_builder_radio`: the bindings made, as pairs of a widget
name and the value the button stands for. -/
def bind_builder_radio (widget_names values : List String) : List (String × Option String) :=
  bind_builder_radio_loop values widget_names 0

/-- The five calls of `bind_builder_radio` in
`nautilus_preferences_window_setup`, by their arrays. -/
def radio_groups : List (List String × List String) :=
  [(click_behavior_components, click_behavior_values),
   (executable_text_components, executable_text_values),
   (recursive_search_components, speed_tradeoff_values),
   (thumbnails_components, speed_tradeoff_values),
   (count_components, speed_tradeoff_values)]

/-- The `active` property the bindings of a group give each button for the
stored string `value`, in the order of the group. -/
def radio_active (widget_names values : List String) (value : String) : List Bool :=
  (bind_builder_radio widget_names values).map fun b => (radio_mapping_get value b.2).2

/-- The table `icon_captions_components`. -/
def icon_captions_components : List String :=
  ["captions_0_combobox", "captions_1_combobox", "captions_2_combobox"]

/-- The `for` loop of `update_caption_combo_box` from index `i` on: the first
index at which `name` stands in the array. -/
def update_caption_combo_box_loop (name : String) : List String → Nat → Option Nat
  | [], _ => none
  | column_name :: rest, i =>
    if name = column_name then some i else update_caption_combo_box_loop name rest (i + 1)

/-- Embedding of `update_caption_combo_box` on the combo box found under the
given name: the entry at the first index where `name` stands becomes active;
when `name` stands nowhere the active entry is left as it is. `none` when the
combo box carries no `column_names` array. -/
def update_caption_combo_box (combo_box : GtkComboBoxText) (name : String) :
    Option GtkComboBoxText :=
  match combo_box.column_names with
  | none => none
  | some column_names =>
    match update_caption_combo_box_loop name column_names 0 with
    | some i => some { combo_box with active := i }
    | none => some combo_box

/-- One round of the loop of `update_icon_captions_from_settings`: the
combo box it is for, the index `j` at which it reads `captions`, and the name
it passes on. -/
structure CaptionUpdate where
  component : String
  read : Nat
  data : String
  deriving DecidableEq, Repr

/-- The `for` loop of `update_icon_captions_from_settings` over the components
still to visit, `j` being the index into `captions`; `captions` is the list of
the strings before the terminator, and a read at its length finds the
terminator. -/
def update_icon_captions_from_settings_loop (captions : List String) :
    List String → Nat → List CaptionUpdate
  | [], _ => []
  | component :: rest, j =>
    match captions[j]? with
    | some data =>
      ⟨component, j, data⟩ :: update_icon_captions_from_settings_loop captions rest (j + 1)
    | none => ⟨component, j, "none"⟩ :: update_icon_captions_from_settings_loop captions rest j

/-- The combo boxes after the updates of a list of rounds, the `i`-th round
being for the `i`-th combo box. -/
def apply_caption_updates : List CaptionUpdate → List GtkComboBoxText →
    Option (List GtkComboBoxText)
  | update :: updates, combo_box :: rest =>
    (update_caption_combo_box combo_box update.data).bind fun c =>
      (apply_caption_updates updates rest).map fun cs => c :: cs
  | _, combo_boxes => some combo_boxes

/-- Embedding of `update_icon_captions_from_settings` on the three caption
combo boxes, in the order of `icon_captions_components`; `captions` is what
`g_settings_get_strv` returns. -/
def update_icon_captions_from_settings (captions : Option (List String))
    (combo_boxes : List GtkComboBoxText) : Option (List GtkComboBoxText) :=
  match captions with
  | none => some combo_boxes
  | some captions =>
    apply_caption_updates
      (update_icon_captions_from_settings_loop captions icon_captions_components 0) combo_boxes

/-- Embedding of `nautilus_preferences_window_setup_icon_caption_page` on the
three caption combo boxes: each gets its entries, then the stored captions are
shown. -/
def nautilus_preferences_window_setup_icon_caption_page (gettext : String → String)
    (columns : List NautilusColumn) (captions : Option (List String))
    (combo_boxes : List GtkComboBoxText) : Option (List GtkComboBoxText) :=
  update_icon_captions_from_settings captions
    (combo_boxes.map fun combo_box => create_icon_caption_combo_box_items gettext combo_box columns)

/-- Read `g_ptr_array_index (column_names, active)`; `none` outside the array. -/
def g_ptr_array_index (column_names : List String) (active : Int) : Option String :=
  if 0 ≤ active then column_names[active.toNat]? else none

/-- Embedding of `icon_captions_changed_callback` on the three caption combo
boxes: the captions written to the settings; `none` when a read of a
`column_names` array is outside the array or a combo box has no array. -/
def icon_captions_changed_callback : List GtkComboBoxText → Option (List String)
  | [] => some []
  | combo_box :: rest =>
    match combo_box.column_names with
    | none => none
    | some column_names =>
      (g_ptr_array_index column_names combo_box.active).bind fun name =>
        (icon_captions_changed_callback rest).map fun names => name :: names

/-- The three caption combo boxes as the interface description declares them. -/
def caption_combo_boxes : List GtkComboBoxText :=
  [empty_combo_box, empty_combo_box, empty_combo_box]

/-- Columns used in examples: name, size and type. -/
def example_columns : List NautilusColumn :=
  [⟨"name", "Name"⟩, ⟨"size", "Size"⟩, ⟨"type", "Type"⟩]

end PreferencesWindow

namespace PlacesViewRow

/-- The property sets `g_object_new` makes on a new row: `volume`, `mount`,
`file` and `is-network` are construct-only, so each is set once, in the order
in which `class_init` installs them. -/
def construction (volume : Option GVolume) (mount : Option GMount) (file : Option GFile)
    (is_network : Bool) : List Action :=
  [Action.set_property (Property.volume volume), Action.set_property (Property.mount mount),
   Action.set_property (Property.file file), Action.set_property (Property.is_network is_network)]

end PlacesViewRow

/-! ## The `CopyURIs` dispatcher -/

namespace DBusManager

theorem copies_append (a b : List Event) : copies (a ++ b) = copies a ++ copies b := by
  induction a with
  | nil => rfl
  | cons e t ih => cases e <;> simp [copies, ih]

theorem constructed_append (a b : List Event) :
    constructed (a ++ b) = constructed a ++ constructed b := by
  induction a with
  | nil => rfl
  | cons e t ih => cases e <;> simp [constructed, ih]

theorem replies_append (a b : List Event) : replies (a ++ b) = replies a ++ replies b := by
  induction a with
  | nil => rfl
  | cons e t ih => cases e <;> simp [replies, ih]

/-- The loop hands back the locations of the vector in reverse, in front of
the list it started from. -/
theorem loop_source_files (uris : List String) (acc : List GFile) :
    (trigger_copy_file_operation_loop uris acc).1 =
      (uris.map g_file_new_for_uri).reverse ++ acc := by
  induction uris generalizing acc with
  | nil => simp [trigger_copy_file_operation_loop]
  | cons u t ih => simp [trigger_copy_file_operation_loop, ih]

/-- The loop builds one location per string and calls nothing else. -/
theorem loop_events (uris : List String) (acc : List GFile) :
    (trigger_copy_file_operation_loop uris acc).2 = uris.map Event.g_file_new_for_uri := by
  induction uris generalizing acc with
  | nil => simp [trigger_copy_file_operation_loop]
  | cons u t ih => simp [trigger_copy_file_operation_loop, ih]

theorem copies_constructions (uris : List String) :
    copies (uris.map Event.g_file_new_for_uri) = [] := by
  induction uris with
  | nil => rfl
  | cons u t ih => simpa [copies] using ih

theorem constructed_constructions (uris : List String) :
    constructed (uris.map Event.g_file_new_for_uri) = uris := by
  induction uris with
  | nil => rfl
  | cons u t ih => simpa [constructed] using ih

theorem replies_constructions (uris : List String) :
    replies (uris.map Event.g_file_new_for_uri) = [] := by
  induction uris with
  | nil => rfl
  | cons u t ih => simpa [replies] using ih

/-- The trace of an accepted request, spelled out. -/
theorem trigger_copy_file_operation_accepted (uris : List String) (dest : String)
    (h : uris ≠ []) :
    trigger_copy_file_operation (some uris) (some dest) =
      [Event.g_file_new_for_uri dest] ++ uris.map Event.g_file_new_for_uri ++
        [Event.nautilus_file_operations_copy (uris.map g_file_new_for_uri).reverse
          (g_file_new_for_uri dest)] := by
  cases uris with
  | nil => exact absurd rfl h
  | cons u t =>
    simp only [trigger_copy_file_operation, loop_events, loop_source_files, List.append_nil]

/-- The trace of a discarded request, spelled out. -/
theorem trigger_copy_file_operation_discarded (sources : Option (List String))
    (destination : Option String)
    (h : sources = none ∨ sources = some [] ∨ destination = none) :
    trigger_copy_file_operation sources destination =
      [Event.g_debug "Called 'CopyURIs' with NULL arguments, discarding" []] := by
  rcases h with h | h | h <;> subst h
  · rfl
  · rfl
  · cases sources with
    | none => rfl
    | some l => cases l <;> rfl

/-- The copy invocations of a dispatched `CopyURIs` call with a non-empty
source vector. -/
theorem handle_method_call_copies (parameters : GVariant) (h : parameters.uris ≠ []) :
    copies (handle_method_call (some "CopyURIs") parameters) =
      [((parameters.uris.map g_file_new_for_uri).reverse,
        g_file_new_for_uri parameters.destination)] := by
  have hm : g_strcmp0_eq (some "CopyURIs") (some "CopyURIs") = true := by decide
  simp only [handle_method_call, hm, if_true, trigger_copy_file_operation_accepted _ _ h,
    copies_append, copies_constructions]
  simp [copies]

/-- Claim C1: a `CopyURIs` call with a non-empty source vector (the destination
of a call is always present) makes `handle_method_call` invoke the copy
collaborator exactly once, with the location of the destination URI as
destination and with as many source locations as the request has source URIs;
the locations built are the destination's and one per source URI. -/
theorem handle_method_call_copy_once (parameters : GVariant) (h : parameters.uris ≠ []) :
    (∃ source_files : List GFile,
      copies (handle_method_call (some "CopyURIs") parameters) =
        [(source_files, g_file_new_for_uri parameters.destination)] ∧
      source_files.length = parameters.uris.length) ∧
    constructed (handle_method_call (some "CopyURIs") parameters) =
      parameters.destination :: parameters.uris := by
  refine ⟨⟨_, handle_method_call_copies parameters h, by simp⟩, ?_⟩
  have hm : g_strcmp0_eq (some "CopyURIs") (some "CopyURIs") = true := by decide
  simp only [handle_method_call, hm, if_true, trigger_copy_file_operation_accepted _ _ h,
    constructed_append, constructed_constructions]
  simp [constructed]

/-- Instance of C1: three sources and a destination. -/
theorem handle_method_call_copy_once_witness :
    (∃ source_files : List GFile,
      copies (handle_method_call (some "CopyURIs")
          ⟨["file:///a", "file:///b", "file:///c"], "file:///d"⟩) =
        [(source_files, g_file_new_for_uri "file:///d")] ∧
      source_files.length = 3) ∧
    constructed (handle_method_call (some "CopyURIs")
        ⟨["file:///a", "file:///b", "file:///c"], "file:///d"⟩) =
      ["file:///d", "file:///a", "file:///b", "file:///c"] :=
  handle_method_call_copy_once ⟨["file:///a", "file:///b", "file:///c"], "file:///d"⟩
    (by decide)

/-- Claim C2: when the source vector is null or empty (its first element is
the terminator) or the destination is null, `trigger_copy_file_operation`
does not invoke the copy collaborator and builds no location. -/
theorem trigger_copy_file_operation_discards (sources : Option (List String))
    (destination : Option String)
    (h : sources = none ∨ sources = some [] ∨ destination = none) :
    copies (trigger_copy_file_operation sources destination) = [] ∧
    constructed (trigger_copy_file_operation sources destination) = [] := by
  rw [trigger_copy_file_operation_discarded sources destination h]
  exact ⟨rfl, rfl⟩

/-- Instance of C2: an empty source vector with a destination. -/
theorem trigger_copy_file_operation_discards_witness :
    copies (trigger_copy_file_operation (some []) (some "file:///d")) = [] ∧
    constructed (trigger_copy_file_operation (some []) (some "file:///d")) = [] :=
  trigger_copy_file_operation_discards (some []) (some "file:///d") (Or.inr (Or.inl rfl))

/-- The replies of `trigger_copy_file_operation`: it never replies. -/
theorem trigger_copy_file_operation_replies (sources : Option (List String))
    (destination : Option String) :
    replies (trigger_copy_file_operation sources destination) = [] := by
  by_cases h : sources = none ∨ sources = some [] ∨ destination = none
  · rw [trigger_copy_file_operation_discarded sources destination h]; rfl
  · obtain ⟨uris, rfl⟩ : ∃ uris, sources = some uris := by
      cases sources with
      | none => exact absurd (Or.inl rfl) h
      | some l => exact ⟨l, rfl⟩
    obtain ⟨dest, rfl⟩ : ∃ dest, destination = some dest := by
      cases destination with
      | none => exact absurd (Or.inr (Or.inr rfl)) h
      | some d => exact ⟨d, rfl⟩
    have hne : uris ≠ [] := fun e => h (Or.inr (Or.inl (by rw [e])))
    rw [trigger_copy_file_operation_accepted uris dest hne]
    simp [replies_append, replies_constructions, replies]

/-- Claim C3: every call of `handle_method_call`, whatever the method name and
the arguments, sends exactly one reply, the empty success reply; so the reply
to a discarded request equals the reply to one that started a copy (any two
calls reply alike), and no error reply is sent. -/
theorem handle_method_call_replies (method_name method_name2 : Option String)
    (parameters parameters2 : GVariant) :
    replies (handle_method_call method_name parameters) =
      [Event.g_dbus_method_invocation_return_value none] ∧
    replies (handle_method_call method_name parameters) =
      replies (handle_method_call method_name2 parameters2) ∧
    (∀ code message, Event.g_dbus_method_invocation_return_error code message ∉
      handle_method_call method_name parameters) := by
  have key : ∀ (m : Option String) (p : GVariant),
      replies (handle_method_call m p) =
        [Event.g_dbus_method_invocation_return_value none] := by
    intro m p
    unfold handle_method_call
    split
    · simp [replies_append, trigger_copy_file_operation_replies, replies]
    · simp [replies]
  refine ⟨key _ _, by rw [key, key], ?_⟩
  intro code message hmem
  have hin : ∀ (l : List Event) (e : Event), e ∈ l →
      (∃ c m, e = Event.g_dbus_method_invocation_return_error c m) → e ∈ replies l := by
    intro l
    induction l with
    | nil => intro e he; cases he
    | cons x t ih =>
      intro e he hx
      obtain ⟨c, m, rfl⟩ := hx
      rcases List.mem_cons.mp he with rfl | he
      · simp [replies]
      · have := ih _ he ⟨c, m, rfl⟩
        cases x <;> simp [replies, this]
  have := hin _ _ hmem ⟨code, message, rfl⟩
  rw [key] at this
  simp at this

/-- Claim C4: for a method name other than `CopyURIs`, `handle_method_call`
does not parse the parameters and does not invoke the copy collaborator; all
it does is send the reply. -/
theorem handle_method_call_other_method (method_name : Option String)
    (parameters : GVariant) (h : method_name ≠ some "CopyURIs") :
    parses (handle_method_call method_name parameters) = [] ∧
    copies (handle_method_call method_name parameters) = [] ∧
    handle_method_call method_name parameters =
      [Event.g_dbus_method_invocation_return_value none] := by
  have hm : g_strcmp0_eq method_name (some "CopyURIs") = false := by
    simpa [g_strcmp0_eq] using h
  have ht : handle_method_call method_name parameters =
      [Event.g_dbus_method_invocation_return_value none] := by
    simp [handle_method_call, hm]
  rw [ht]
  exact ⟨rfl, rfl, rfl⟩

/-- Instance of C4: a call of `MoveURIs` with well-formed arguments. -/
theorem handle_method_call_other_method_witness :
    parses (handle_method_call (some "MoveURIs") ⟨["file:///a"], "file:///d"⟩) = [] ∧
    copies (handle_method_call (some "MoveURIs") ⟨["file:///a"], "file:///d"⟩) = [] ∧
    handle_method_call (some "MoveURIs") ⟨["file:///a"], "file:///d"⟩ =
      [Event.g_dbus_method_invocation_return_value none] :=
  handle_method_call_other_method (some "MoveURIs") ⟨["file:///a"], "file:///d"⟩ (by decide)

/-- Claim C5: for an accepted `CopyURIs` request with source URIs
`u_0 .. u_{N-1}`, the source list handed to the copy collaborator is the
locations of the URIs in reversed request order: it has `N` elements, its
`i`-th element is the location of `u_{N-1-i}`, and it is a rearrangement of the
locations of the URIs (none dropped, none duplicated). -/
theorem handle_method_call_sources_reversed (parameters : GVariant)
    (h : parameters.uris ≠ []) :
    ∃ source_files : List GFile,
      copies (handle_method_call (some "CopyURIs") parameters) =
        [(source_files, g_file_new_for_uri parameters.destination)] ∧
      source_files.length = parameters.uris.length ∧
      (∀ i, i < parameters.uris.length →
        source_files[i]? =
          (parameters.uris[parameters.uris.length - 1 - i]?).map g_file_new_for_uri) ∧
      List.Perm source_files (parameters.uris.map g_file_new_for_uri) := by
  refine ⟨_, handle_method_call_copies parameters h, by simp, ?_, List.reverse_perm _⟩
  intro i hi
  rw [List.getElem?_reverse (by simpa using hi)]
  simp

/-- Instance of C5: with sources `a, b, c` the collaborator receives `c, b, a`. -/
theorem handle_method_call_sources_reversed_witness :
    ∃ source_files : List GFile,
      copies (handle_method_call (some "CopyURIs") ⟨["a", "b", "c"], "d"⟩) =
        [(source_files, g_file_new_for_uri "d")] ∧
      source_files.length = 3 ∧
      (∀ i, i < 3 →
        source_files[i]? = (["a", "b", "c"][3 - 1 - i]?).map g_file_new_for_uri) ∧
      List.Perm source_files (["a", "b", "c"].map g_file_new_for_uri) :=
  handle_method_call_sources_reversed ⟨["a", "b", "c"], "d"⟩ (by decide)

end DBusManager

/-! ## The free-space probe of a places-view row -/

namespace PlacesViewRow

theorem mem_g_cancellable_cancel (c : Option GCancellable) (cancelled : List GCancellable)
    (x : GCancellable) :
    x ∈ g_cancellable_cancel c cancelled ↔ x ∈ cancelled ∨ c = some x := by
  cases c with
  | none => simp [g_cancellable_cancel]
  | some y =>
    simp only [g_cancellable_cancel]
    split
    · constructor
      · intro h; exact Or.inl h
      · rintro (h | h)
        · exact h
        · cases h; assumption
    · simp only [List.mem_cons, Option.some.injEq]
      constructor
      · rintro (h | h)
        · exact Or.inr h.symm
        · exact Or.inl h
      · rintro (h | h)
        · exact Or.inr h
        · exact Or.inl h.symm

/-- The two outcomes of `measure_available_space`: either it resolves a
location, cancels the row's cancellable, installs a fresh one and issues a
query with it, or it only rewrites the label. -/
theorem measure_available_space_cases (s : State) :
    (∃ file, should_measure s.row = true ∧ measure_available_space_file s.row = some file ∧
      measure_available_space s =
        { row := { s.row with
                    available_space_label := { label := "", visible := true }
                    cancellable := some s.next }
          cancelled := g_cancellable_cancel s.row.cancellable s.cancelled
          pending := s.pending ++ [⟨file, filesystem_attributes, s.next⟩]
          next := s.next + 1
          warnings := s.warnings }) ∨
    ((should_measure s.row = false ∨ measure_available_space_file s.row = none) ∧
      measure_available_space s =
        { s with row := { s.row with
            available_space_label := { label := "", visible := should_measure s.row } } }) := by
  cases hm : should_measure s.row with
  | false =>
    right
    refine ⟨Or.inl rfl, ?_⟩
    simp [measure_available_space, hm]
  | true =>
    cases hf : measure_available_space_file s.row with
    | none =>
      right
      refine ⟨Or.inr rfl, ?_⟩
      simp only [measure_available_space, hm, if_true]
      split
      next file2 hf2 =>
        have h2 : measure_available_space_file s.row = some file2 := hf2
        rw [hf] at h2
        cases h2
      next hf2 => rfl
    | some file =>
      left
      refine ⟨file, rfl, rfl, ?_⟩
      simp only [measure_available_space, hm, if_true]
      split
      next file2 hf2 =>
        have h2 : measure_available_space_file s.row = some file2 := hf2
        rw [hf] at h2
        cases h2
        rfl
      next hf2 =>
        have h2 : measure_available_space_file s.row = none := hf2
        rw [hf] at h2
        cases h2

theorem inv_initial (template : GtkNautilusPlacesViewRow) : Inv (initial template) := by
  constructor <;> simp [initial, gtk_nautilus_places_view_row_init]

/-- Writing row fields other than the cancellable keeps the invariant. -/
theorem inv_of_row (s : State) (row : GtkNautilusPlacesViewRow) (h : Inv s)
    (hc : row.cancellable = s.row.cancellable) : Inv { s with row := row } := by
  obtain ⟨h1, h2, h3, h4, h5⟩ := h
  constructor
  · exact h1
  · intro c hc2; exact h2 c (by rw [← hc]; exact hc2)
  · exact h3
  · exact h4
  · intro q hq
    rcases h5 q hq with h | h
    · exact Or.inl h
    · exact Or.inr (by show row.cancellable = _; rw [hc]; exact h)

theorem inv_measure_available_space (s : State) (h : Inv s) :
    Inv (measure_available_space s) := by
  rcases measure_available_space_cases s with ⟨file, -, -, he⟩ | ⟨-, he⟩
  · rw [he]
    obtain ⟨h1, h2, h3, h4, h5⟩ := h
    constructor
    · intro q hq
      simp only [List.mem_append, List.mem_singleton] at hq
      rcases hq with hq | rfl
      · exact Nat.lt_succ_of_lt (h1 q hq)
      · exact Nat.lt_succ_self _
    · intro c hc
      simp only [Option.some.injEq] at hc
      subst hc
      exact Nat.lt_succ_self _
    · intro c hc
      rcases (mem_g_cancellable_cancel _ _ _).mp hc with hc | hc
      · exact Nat.lt_succ_of_lt (h3 c hc)
      · exact Nat.lt_succ_of_lt (h2 c hc)
    · simp only [List.map_append, List.map_cons, List.map_nil]
      rw [List.nodup_append]
      refine ⟨h4, List.nodup_singleton _, ?_⟩
      intro a ha hb
      simp only [List.mem_singleton] at hb
      subst hb
      obtain ⟨q, hq, hqe⟩ := List.mem_map.mp ha
      have hlt := h1 q hq
      rw [hqe] at hlt
      exact Nat.lt_irrefl _ hlt
    · intro q hq
      simp only [List.mem_append, List.mem_singleton] at hq
      rcases hq with hq | rfl
      · left
        rw [mem_g_cancellable_cancel]
        exact (h5 q hq).imp id id
      · right; rfl
  · rw [he]
    exact inv_of_row s _ h rfl

theorem inv_measure_available_space_finished (env : Env) (s : State) (res : QueryResult)
    (h : Inv s) : Inv (measure_available_space_finished env s res) := by
  unfold measure_available_space_finished
  split
  · split
    · obtain ⟨h1, h2, h3, h4, h5⟩ := h
      exact ⟨h1, h2, h3, h4, h5⟩
    · exact h
  · split
    · exact inv_of_row s _ h rfl
    · exact h

theorem inv_eraseIdx (s : State) (index : Nat) (h : Inv s) :
    Inv { s with pending := s.pending.eraseIdx index } := by
  obtain ⟨h1, h2, h3, h4, h5⟩ := h
  constructor
  · intro q hq; exact h1 q (List.mem_of_mem_eraseIdx hq)
  · exact h2
  · exact h3
  · exact List.Nodup.sublist ((List.eraseIdx_sublist _ _).map _) h4
  · intro q hq; exact h5 q (List.mem_of_mem_eraseIdx hq)

theorem set_is_network_cancellable (row : GtkNautilusPlacesViewRow) (b : Bool) :
    (gtk_nautilus_places_view_row_set_is_network row b).cancellable = row.cancellable := by
  unfold gtk_nautilus_places_view_row_set_is_network
  split <;> rfl

theorem inv_step (env : Env) (s : State) (a : Action) (h : Inv s) : Inv (step env s a) := by
  cases a with
  | set_property p =>
    cases p with
    | icon v => exact inv_of_row s _ h rfl
    | name v => exact inv_of_row s _ h rfl
    | path v => exact inv_of_row s _ h rfl
    | volume v => exact inv_of_row s _ h rfl
    | mount v => exact inv_measure_available_space _ (inv_of_row s _ h rfl)
    | file v => exact inv_measure_available_space _ (inv_of_row s _ h rfl)
    | is_network v =>
      exact inv_measure_available_space _ (inv_of_row s _ h (set_is_network_cancellable _ _))
  | set_is_network b => exact inv_of_row s _ h (set_is_network_cancellable _ _)
  | set_busy b => exact inv_of_row s _ h rfl
  | finished index produced =>
    simp only [step]
    split
    · exact h
    · exact inv_measure_available_space_finished env _ _ (inv_eraseIdx s index h)

theorem inv_run (env : Env) (s : State) (actions : List Action) (h : Inv s) :
    Inv (run env s actions) := by
  induction actions generalizing s with
  | nil => exact h
  | cons a t ih => exact ih (step env s a) (inv_step env s a h)

/-- Under the invariant at most one outstanding query has a cancellable that
is not cancelled. -/
theorem live_length_le_one (s : State) (h : Inv s) : (live s).length ≤ 1 := by
  have hsub : (live s).Sublist s.pending := List.filter_sublist _
  have hnd : ((live s).map Query.cancellable).Nodup := List.Nodup.sublist (hsub.map _) h.nodup
  have hall : ∀ q ∈ live s, s.row.cancellable = some q.cancellable := by
    intro q hq
    have hq2 := List.mem_filter.mp hq
    rcases h.superseded q hq2.1 with hc | hc
    · exact absurd hc (by simpa using hq2.2)
    · exact hc
  match hl : live s with
  | [] => simp
  | [_] => simp
  | a :: b :: t =>
    exfalso
    rw [hl] at hnd hall
    have ha := hall a (by simp)
    have hb := hall b (by simp)
    have hab : a.cancellable = b.cancellable := Option.some.inj (ha.symm.trans hb)
    simp [hab] at hnd

/-- After `measure_available_space` has issued a query, that query is the only
outstanding one whose cancellable is not cancelled. -/
theorem live_after_issue (s : State) (h : Inv s) (file : GFile) :
    live { row := { s.row with
                    available_space_label := { label := "", visible := true }
                    cancellable := some s.next }
           cancelled := g_cancellable_cancel s.row.cancellable s.cancelled
           pending := s.pending ++ [⟨file, filesystem_attributes, s.next⟩]
           next := s.next + 1
           warnings := s.warnings } = [⟨file, filesystem_attributes, s.next⟩] := by
  have hnew : s.next ∉ g_cancellable_cancel s.row.cancellable s.cancelled := by
    intro hmem
    rcases (mem_g_cancellable_cancel _ _ _).mp hmem with hc | hc
    · exact Nat.lt_irrefl _ (h.cancelled_lt _ hc)
    · exact Nat.lt_irrefl _ (h.row_lt _ hc)
  have hold : List.filter
      (fun q : Query => decide (q.cancellable ∉ g_cancellable_cancel s.row.cancellable s.cancelled))
      s.pending = [] := by
    rw [List.filter_eq_nil_iff]
    intro q hq
    have := (mem_g_cancellable_cancel s.row.cancellable s.cancelled q.cancellable).mpr
      (h.superseded q hq)
    simpa using this
  simp only [live, List.filter_append, hold, List.nil_append]
  simp [List.filter, hnew]

/-- Claim C6: in every state reached from a new row by property sets, calls of
the public setters and probe completions, at most one outstanding free-space
query has a cancellable that is not cancelled; and whenever
`measure_available_space`, called there with any values of the other row
fields, issues a query, the row's previous cancellable is cancelled, the row
holds a fresh cancellable that is not cancelled and differs from the previous
one, the new query carries it, and the new query is then the only outstanding
one that is not cancelled. -/
theorem at_most_one_probe_in_flight (env : Env) (template : GtkNautilusPlacesViewRow)
    (actions : List Action) :
    (live (run env (initial template) actions)).length ≤ 1 ∧
    ∀ row : GtkNautilusPlacesViewRow,
      row.cancellable = (run env (initial template) actions).row.cancellable →
      (measure_available_space { run env (initial template) actions with row := row }).pending ≠
        (run env (initial template) actions).pending →
      ∃ file : GFile,
        (measure_available_space { run env (initial template) actions with row := row }).pending =
          (run env (initial template) actions).pending ++
            [⟨file, filesystem_attributes, (run env (initial template) actions).next⟩] ∧
        (∀ c, row.cancellable = some c →
          c ∈ (measure_available_space
            { run env (initial template) actions with row := row }).cancelled) ∧
        (measure_available_space
            { run env (initial template) actions with row := row }).row.cancellable =
          some (run env (initial template) actions).next ∧
        row.cancellable ≠ some (run env (initial template) actions).next ∧
        (run env (initial template) actions).next ∉
          (measure_available_space
            { run env (initial template) actions with row := row }).cancelled ∧
        live (measure_available_space { run env (initial template) actions with row := row }) =
          [⟨file, filesystem_attributes, (run env (initial template) actions).next⟩] := by
  have hinv : Inv (run env (initial template) actions) := inv_run env _ actions (inv_initial template)
  refine ⟨live_length_le_one _ hinv, ?_⟩
  intro row hrow hne
  generalize run env (initial template) actions = s at hinv hrow hne ⊢
  have hinv2 : Inv { s with row := row } := inv_of_row s row hinv hrow
  rcases measure_available_space_cases { s with row := row } with ⟨file, -, -, he⟩ | ⟨-, he⟩
  · refine ⟨file, ?_, ?_, ?_, ?_, ?_, ?_⟩
    · rw [he]
    · intro c hc
      rw [he]
      exact (mem_g_cancellable_cancel _ _ _).mpr (Or.inr hc)
    · rw [he]
    · intro hc
      exact Nat.lt_irrefl _ (hinv2.row_lt _ hc)
    · rw [he]
      intro hmem
      rcases (mem_g_cancellable_cancel _ _ _).mp hmem with hc | hc
      · exact Nat.lt_irrefl _ (hinv2.cancelled_lt _ hc)
      · exact Nat.lt_irrefl _ (hinv2.row_lt _ hc)
    · rw [he]
      exact live_after_issue { s with row := row } hinv2 file
  · exact absurd (by rw [he]) hne

/-- Claim C7, the code at the failing input: a row whose volume is a mounted
volume and whose mount is then set to null is not a network row and the
location specified for it is the root of the volume's mount, yet `measure_available_space` resolves no location (the volume branch
passes `row->mount`, which is null there, to `g_mount_get_root`) and issues no
query. -/
theorem measure_available_space_volume_only :
    (run plain_env (initial blank_template)
      (volume_then_mount (some ⟨some usb_mount⟩) none)).row.is_network = false ∧
    specified_location (run plain_env (initial blank_template)
      (volume_then_mount (some ⟨some usb_mount⟩) none)).row =
        some ⟨"file:///media/usb"⟩ ∧
    measure_available_space_file (run plain_env (initial blank_template)
      (volume_then_mount (some ⟨some usb_mount⟩) none)).row = none ∧
    (run plain_env (initial blank_template)
      (volume_then_mount (some ⟨some usb_mount⟩) none)).pending = [] := by
  refine ⟨rfl, rfl, rfl, rfl⟩

/-- Claim C8 as stated fails: the row built from a volume that has no mount is
not a network row and no location resolves for it (no file, no mount, no
volume that has a mount; no query is issued), yet after
`measure_available_space` its available-space label is visible. -/
theorem label_visible_without_location :
    (run plain_env (initial blank_template)
      (volume_then_mount (some ⟨none⟩) none)).row.is_network = false ∧
    specified_location (run plain_env (initial blank_template)
      (volume_then_mount (some ⟨none⟩) none)).row = none ∧
    (run plain_env (initial blank_template)
      (volume_then_mount (some ⟨none⟩) none)).pending = [] ∧
    (run plain_env (initial blank_template)
      (volume_then_mount (some ⟨none⟩) none)).row.available_space_label.visible =
        true := by
  refine ⟨rfl, rfl, rfl, rfl⟩

/-- Claim C8, amended: after every call of `measure_available_space` the
available-space label is hidden exactly when the row is a network location or
has none of volume, mount and file set, and visible exactly when the row is
not a network location and at least one of the three is set, whether or not a
location resolves; whenever a query is issued the label is visible. -/
theorem measure_available_space_label_visible (s : State) :
    ((measure_available_space s).row.available_space_label.visible = false ↔
      (s.row.is_network = true ∨
        (s.row.volume = none ∧ s.row.mount = none ∧ s.row.file = none))) ∧
    ((measure_available_space s).row.available_space_label.visible = true ↔
      (s.row.is_network = false ∧
        (s.row.volume ≠ none ∨ s.row.mount ≠ none ∨ s.row.file ≠ none))) ∧
    ((measure_available_space s).pending ≠ s.pending →
      (measure_available_space s).row.available_space_label.visible = true) := by
  have hv : (measure_available_space s).row.available_space_label.visible =
      should_measure s.row := by
    rcases measure_available_space_cases s with ⟨file, hm, -, he⟩ | ⟨-, he⟩
    · rw [he, hm]
    · rw [he]
  have hp : (measure_available_space s).pending ≠ s.pending → should_measure s.row = true := by
    intro hne
    rcases measure_available_space_cases s with ⟨file, hm, -, -⟩ | ⟨-, he⟩
    · exact hm
    · exact absurd (by rw [he]) hne
  refine ⟨?_, ?_, fun hne => by rw [hv]; exact hp hne⟩
  · rw [hv]
    unfold should_measure
    cases s.row.is_network <;> cases s.row.volume <;> cases s.row.mount <;>
      cases s.row.file <;> simp
  · rw [hv]
    unfold should_measure
    cases s.row.is_network <;> cases s.row.volume <;> cases s.row.mount <;>
      cases s.row.file <;> simp

theorem failed_format_data :
    "Failed to measure available space: %s".data =
      "Failed to measure available space: ".data ++ ['%', 's'] :=
  rfl

/-- The expansion of a format that ends in its only directive. -/
theorem printf_chars_suffix (pre : List Char) (message : String) (h : '%' ∉ pre) :
    printf_chars (pre ++ ['%', 's']) [message] = pre ++ message.data := by
  induction pre with
  | nil => simp [printf_chars]
  | cons c t ih =>
    have hc : c ≠ '%' := fun e => h (by simp [e])
    have ht : '%' ∉ t := fun e => h (by simp [e])
    cases t with
    | nil =>
      have := ih ht
      simp only [List.nil_append] at this
      simp [printf_chars, hc, this]
    | cons d u =>
      have := ih ht
      simp only [List.cons_append] at this ⊢
      rw [printf_chars]
      · rw [this]
      · intro rest a args heq
        exact absurd heq hc

/-- The warning format applied to a message. -/
theorem g_strdup_printf_failed (message : String) :
    g_strdup_printf "Failed to measure available space: %s" [message] =
      "Failed to measure available space: " ++ message := by
  unfold g_strdup_printf
  rw [failed_format_data, printf_chars_suffix _ _ (by decide)]
  apply String.ext
  simp [String.data_append]

/-- Claim C10: on a failed completion `measure_available_space_finished` logs a
warning if and only if the error is neither `G_IO_ERROR_CANCELLED` nor
`G_IO_ERROR_NOT_MOUNTED` of the GIO domain; then it logs exactly one, naming
the error's message, and for the two expected errors it logs nothing. -/
theorem measure_available_space_finished_warning (env : Env) (s : State) (error : GError) :
    ((measure_available_space_finished env s (QueryResult.error error)).warnings ≠ s.warnings ↔
      ¬ (error.domain = G_IO_ERROR ∧ error.code = G_IO_ERROR_CANCELLED) ∧
      ¬ (error.domain = G_IO_ERROR ∧ error.code = G_IO_ERROR_NOT_MOUNTED)) ∧
    ((error.domain = G_IO_ERROR ∧
        (error.code = G_IO_ERROR_CANCELLED ∨ error.code = G_IO_ERROR_NOT_MOUNTED)) →
      (measure_available_space_finished env s (QueryResult.error error)).warnings = s.warnings) ∧
    (¬ (error.domain = G_IO_ERROR ∧
        (error.code = G_IO_ERROR_CANCELLED ∨ error.code = G_IO_ERROR_NOT_MOUNTED)) →
      (measure_available_space_finished env s (QueryResult.error error)).warnings =
        s.warnings ++ ["Failed to measure available space: " ++ error.message]) := by
  by_cases hd : error.domain = G_IO_ERROR
  · by_cases hc : error.code = G_IO_ERROR_CANCELLED
    · simp [measure_available_space_finished, g_error_matches, hd, hc]
    · by_cases hn : error.code = G_IO_ERROR_NOT_MOUNTED
      · simp [measure_available_space_finished, g_error_matches, hd, hn]
      · simp [measure_available_space_finished, g_error_matches, hd, hc, hn,
          g_strdup_printf_failed]
  · simp [measure_available_space_finished, g_error_matches, hd, g_strdup_printf_failed]

/-- Claim C11: on a failed completion, whatever the error,
`measure_available_space_finished` leaves the row as it was (label text, label
visibility and every other field), and with it the cancelled set, the
outstanding queries and the allocator; only the warning log can grow. -/
theorem measure_available_space_finished_error_row (env : Env) (s : State) (error : GError) :
    (measure_available_space_finished env s (QueryResult.error error)).row = s.row ∧
    (measure_available_space_finished env s (QueryResult.error error)).cancelled = s.cancelled ∧
    (measure_available_space_finished env s (QueryResult.error error)).pending = s.pending ∧
    (measure_available_space_finished env s (QueryResult.error error)).next = s.next := by
  simp only [measure_available_space_finished]
  split <;> exact ⟨rfl, rfl, rfl, rfl⟩

/-- The label is blank right after `measure_available_space`. -/
theorem measure_available_space_label (s : State) :
    (measure_available_space s).row.available_space_label.label = "" := by
  rcases measure_available_space_cases s with ⟨file, -, -, he⟩ | ⟨-, he⟩ <;> rw [he]

/-- Claim C12: on a successful completion whose info lacks the free-bytes or
the total-bytes attribute, `measure_available_space_finished` writes nothing:
the state, and so the label text, is the same before and after; on the state
`measure_available_space` leaves behind the label is therefore still blank. -/
theorem measure_available_space_finished_missing (env : Env) (s : State) (info : GFileInfo)
    (h : info.filesystem_free = none ∨ info.filesystem_size = none) :
    measure_available_space_finished env s (QueryResult.info info) = s ∧
    (measure_available_space_finished env s
      (QueryResult.info info)).row.available_space_label.label =
        s.row.available_space_label.label ∧
    (measure_available_space_finished env (measure_available_space s)
      (QueryResult.info info)).row.available_space_label.label = "" := by
  have key : ∀ t : State, measure_available_space_finished env t (QueryResult.info info) = t := by
    intro t
    obtain ⟨free_space, total_space⟩ := info
    rcases h with h | h
    · simp only at h
      subst h
      rfl
    · simp only at h
      subst h
      cases free_space <;> rfl
  rw [key, key]
  exact ⟨rfl, rfl, measure_available_space_label s⟩

/-- Instance of C12: the info of a probe started on a mount carries the total
size only. -/
theorem measure_available_space_finished_missing_witness :
    measure_available_space_finished plain_env
        (run plain_env (initial blank_template) (volume_then_mount none (some usb_mount)))
        (QueryResult.info ⟨none, some 1048576⟩) =
      run plain_env (initial blank_template) (volume_then_mount none (some usb_mount)) ∧
    (measure_available_space_finished plain_env
        (run plain_env (initial blank_template) (volume_then_mount none (some usb_mount)))
        (QueryResult.info ⟨none, some 1048576⟩)).row.available_space_label.label =
      (run plain_env (initial blank_template)
        (volume_then_mount none (some usb_mount))).row.available_space_label.label ∧
    (measure_available_space_finished plain_env
        (measure_available_space
          (run plain_env (initial blank_template) (volume_then_mount none (some usb_mount))))
        (QueryResult.info ⟨none, some 1048576⟩)).row.available_space_label.label = "" :=
  measure_available_space_finished_missing plain_env
    (run plain_env (initial blank_template) (volume_then_mount none (some usb_mount)))
    ⟨none, some 1048576⟩ (Or.inl rfl)

/-- What `measure_available_space` has done when it has issued a query, under
the invariant. -/
theorem measure_available_space_issued (t : State) (h : Inv t)
    (hne : (measure_available_space t).pending ≠ t.pending) :
    ∃ file : GFile,
      (measure_available_space t).pending =
        t.pending ++ [⟨file, filesystem_attributes, t.next⟩] ∧
      (measure_available_space t).row.cancellable = some t.next ∧
      t.row.cancellable ≠ some t.next ∧
      t.next ∉ (measure_available_space t).cancelled ∧
      (∀ c, t.row.cancellable = some c → c ∈ (measure_available_space t).cancelled) ∧
      (∀ q ∈ t.pending, q.cancellable ∈ (measure_available_space t).cancelled) := by
  rcases measure_available_space_cases t with ⟨file, -, -, he⟩ | ⟨-, he⟩
  · refine ⟨file, by rw [he], by rw [he], ?_, ?_, ?_, ?_⟩
    · intro hc
      exact Nat.lt_irrefl _ (h.row_lt _ hc)
    · rw [he]
      intro hmem
      rcases (mem_g_cancellable_cancel _ _ _).mp hmem with hc | hc
      · exact Nat.lt_irrefl _ (h.cancelled_lt _ hc)
      · exact Nat.lt_irrefl _ (h.row_lt _ hc)
    · intro c hc
      rw [he]
      exact (mem_g_cancellable_cancel _ _ _).mpr (Or.inr hc)
    · intro q hq
      rw [he]
      exact (mem_g_cancellable_cancel _ _ _).mpr (h.superseded q hq)
  · exact absurd (by rw [he]) hne

/-- When `measure_available_space` issues no query it touches neither the
cancelled set nor the row's cancellable. -/
theorem measure_available_space_not_issued (t : State)
    (heq : (measure_available_space t).pending = t.pending) :
    (measure_available_space t).cancelled = t.cancelled ∧
    (measure_available_space t).row.cancellable = t.row.cancellable := by
  rcases measure_available_space_cases t with ⟨file, -, -, he⟩ | ⟨-, he⟩
  · rw [he] at heq
    simp at heq
  · rw [he]
    exact ⟨rfl, rfl⟩

/-- Every case of `set_property` either only writes row fields other than the
cancellable, or does so and then calls `measure_available_space`. -/
theorem set_property_shape (s : State) (p : Property) :
    ∃ row : GtkNautilusPlacesViewRow, row.cancellable = s.row.cancellable ∧
      row.available_space_label = s.row.available_space_label ∧
      (gtk_nautilus_places_view_row_set_property s p =
          measure_available_space { s with row := row } ∨
        gtk_nautilus_places_view_row_set_property s p = { s with row := row }) := by
  cases p with
  | icon v => exact ⟨{ s.row with icon_image := v }, rfl, rfl, Or.inr rfl⟩
  | name v => exact ⟨{ s.row with name_label := v }, rfl, rfl, Or.inr rfl⟩
  | path v => exact ⟨{ s.row with path_label := v }, rfl, rfl, Or.inr rfl⟩
  | volume v => exact ⟨{ s.row with volume := v }, rfl, rfl, Or.inr rfl⟩
  | mount v =>
    exact ⟨{ s.row with mount := v, eject_button_child_visible := v.isSome }, rfl, rfl,
      Or.inl rfl⟩
  | file v => exact ⟨{ s.row with file := v }, rfl, rfl, Or.inl rfl⟩
  | is_network v =>
    refine ⟨gtk_nautilus_places_view_row_set_is_network s.row v,
      set_is_network_cancellable _ _, ?_, Or.inl rfl⟩
    unfold gtk_nautilus_places_view_row_set_is_network
    split <;> rfl

/-- The completion of a query whose cancellable is cancelled only removes the
query from the outstanding ones. -/
theorem step_finished_cancelled (env : Env) (s : State) (index : Nat) (produced : QueryResult)
    (q : Query) (hq : s.pending.get? index = some q) (hc : q.cancellable ∈ s.cancelled) :
    step env s (Action.finished index produced) =
      { s with pending := s.pending.eraseIdx index } := by
  simp only [step, hq, g_file_query_filesystem_info_finish, hc, if_true]
  rfl

/-- Cancellation is permanent: no transition removes a cancellable from the
cancelled set. -/
theorem step_cancelled_mono (env : Env) (s : State) (a : Action) (c : GCancellable)
    (hc : c ∈ s.cancelled) : c ∈ (step env s a).cancelled := by
  have hmeasure : ∀ t : State, c ∈ t.cancelled → c ∈ (measure_available_space t).cancelled := by
    intro t ht
    rcases measure_available_space_cases t with ⟨file, -, -, he⟩ | ⟨-, he⟩
    · rw [he]
      exact (mem_g_cancellable_cancel _ _ _).mpr (Or.inl ht)
    · rw [he]
      exact ht
  cases a with
  | set_property p =>
    obtain ⟨row, -, -, hp | hp⟩ := set_property_shape s p
    · simp only [step, hp]
      exact hmeasure _ hc
    · simp only [step, hp]
      exact hc
  | set_is_network b => exact hc
  | set_busy b => exact hc
  | finished index produced =>
    simp only [step]
    split
    · exact hc
    · simp only [measure_available_space_finished]
      split
      · split <;> exact hc
      · split <;> exact hc

theorem run_cancelled_mono (env : Env) (s : State) (actions : List Action) (c : GCancellable)
    (hc : c ∈ s.cancelled) : c ∈ (run env s actions).cancelled := by
  induction actions generalizing s with
  | nil => exact hc
  | cons a t ih => exact ih (step env s a) (step_cancelled_mono env s a c hc)

/-- Claim C13 as stated fails: on the row of a volume that has no mount, built
as `g_object_new` builds it, neither the set of `volume` nor the set of `mount`
nor the set of `file` installs a cancellable: after each of them the row holds
none, and at the end of the construction nothing has been cancelled, no
cancellable has been created and no query is outstanding. -/
theorem unmounted_volume_installs_no_token :
    construction (some ⟨none⟩) none none false =
      [Action.set_property (Property.volume (some ⟨none⟩)),
       Action.set_property (Property.mount none),
       Action.set_property (Property.file none),
       Action.set_property (Property.is_network false)] ∧
    (run plain_env (initial blank_template)
      [Action.set_property (Property.volume (some ⟨none⟩))]).row.cancellable = none ∧
    (run plain_env (initial blank_template)
      [Action.set_property (Property.volume (some ⟨none⟩)),
       Action.set_property (Property.mount none)]).row.cancellable = none ∧
    (run plain_env (initial blank_template)
      [Action.set_property (Property.volume (some ⟨none⟩)),
       Action.set_property (Property.mount none),
       Action.set_property (Property.file none)]).row.cancellable = none ∧
    (run plain_env (initial blank_template)
      (construction (some ⟨none⟩) none none false)).row.cancellable = none ∧
    (run plain_env (initial blank_template)
      (construction (some ⟨none⟩) none none false)).cancelled = [] ∧
    (run plain_env (initial blank_template)
      (construction (some ⟨none⟩) none none false)).next = 0 ∧
    (run plain_env (initial blank_template)
      (construction (some ⟨none⟩) none none false)).pending = [] := by
  refine ⟨rfl, rfl, rfl, rfl, rfl, rfl, rfl, rfl⟩

/-- On a row under construction the set of `file` cancels the cancellable of
every query issued before it. -/
theorem construction_file_cancels (env : Env) (template : GtkNautilusPlacesViewRow)
    (volume : Option GVolume) (mount : Option GMount) (file : Option GFile) (q : Query)
    (hq : q ∈ (run env (initial template)
      [Action.set_property (Property.volume volume),
       Action.set_property (Property.mount mount)]).pending) :
    q.cancellable ∈ (run env (initial template)
      [Action.set_property (Property.volume volume),
       Action.set_property (Property.mount mount),
       Action.set_property (Property.file file)]).cancelled := by
  cases mount with
  | none =>
    exfalso
    cases volume with
    | none =>
      simp [run, step, gtk_nautilus_places_view_row_set_property, measure_available_space,
        should_measure, initial, gtk_nautilus_places_view_row_init] at hq
    | some v =>
      obtain ⟨vm⟩ := v
      cases vm <;>
      simp [run, step, gtk_nautilus_places_view_row_set_property, measure_available_space,
        should_measure, measure_available_space_file, initial,
        gtk_nautilus_places_view_row_init, g_volume_get_mount, g_mount_get_root] at hq
  | some m =>
    cases file <;> cases volume <;>
    simp [run, step, gtk_nautilus_places_view_row_set_property, measure_available_space,
      should_measure, measure_available_space_file, initial,
      gtk_nautilus_places_view_row_init, g_mount_get_root, g_cancellable_cancel] at hq ⊢ <;>
    simp [hq]

theorem run_append (env : Env) (s : State) (first later : List Action) :
    run env s (first ++ later) = run env (run env s first) later := by
  simp [run, List.foldl_append]

/-- Claim C13, amended: whenever a set of a property of a reached row makes
`measure_available_space` issue a query, the row's current cancellable is
cancelled and replaced by a fresh one that is not cancelled, and from then on,
whatever happens next, the completion of a query issued before cannot change
the row, so it cannot write the label; a set that issues no query installs no
cancellable and cancels none; and on a row under construction, whatever its
volume, mount and file, a query issued before the set of `file` can, after
that set, never change the row. -/
theorem set_property_replaces_cancellable (env : Env) (template : GtkNautilusPlacesViewRow)
    (actions : List Action) (p : Property) :
    ((gtk_nautilus_places_view_row_set_property (run env (initial template) actions) p).pending ≠
        (run env (initial template) actions).pending →
      (∀ c, (run env (initial template) actions).row.cancellable = some c →
        c ∈ (gtk_nautilus_places_view_row_set_property
          (run env (initial template) actions) p).cancelled) ∧
      (gtk_nautilus_places_view_row_set_property
          (run env (initial template) actions) p).row.cancellable =
        some (run env (initial template) actions).next ∧
      (run env (initial template) actions).row.cancellable ≠
        some (run env (initial template) actions).next ∧
      (run env (initial template) actions).next ∉
        (gtk_nautilus_places_view_row_set_property
          (run env (initial template) actions) p).cancelled ∧
      ∀ (later : List Action) (index : Nat) (produced : QueryResult) (q : Query),
        q ∈ (run env (initial template) actions).pending →
        (run env (gtk_nautilus_places_view_row_set_property
          (run env (initial template) actions) p) later).pending.get? index = some q →
        (step env (run env (gtk_nautilus_places_view_row_set_property
            (run env (initial template) actions) p) later)
          (Action.finished index produced)).row =
        (run env (gtk_nautilus_places_view_row_set_property
          (run env (initial template) actions) p) later).row) ∧
    ((gtk_nautilus_places_view_row_set_property (run env (initial template) actions) p).pending =
        (run env (initial template) actions).pending →
      (gtk_nautilus_places_view_row_set_property
          (run env (initial template) actions) p).cancelled =
        (run env (initial template) actions).cancelled ∧
      (gtk_nautilus_places_view_row_set_property
          (run env (initial template) actions) p).row.cancellable =
        (run env (initial template) actions).row.cancellable) ∧
    (∀ (volume : Option GVolume) (mount : Option GMount) (file : Option GFile)
        (later : List Action) (index : Nat) (produced : QueryResult) (q : Query),
      q ∈ (run env (initial template)
        [Action.set_property (Property.volume volume),
         Action.set_property (Property.mount mount)]).pending →
      (run env (initial template)
        ([Action.set_property (Property.volume volume),
          Action.set_property (Property.mount mount),
          Action.set_property (Property.file file)] ++ later)).pending.get? index = some q →
      (step env (run env (initial template)
          ([Action.set_property (Property.volume volume),
            Action.set_property (Property.mount mount),
            Action.set_property (Property.file file)] ++ later))
        (Action.finished index produced)).row =
      (run env (initial template)
        ([Action.set_property (Property.volume volume),
          Action.set_property (Property.mount mount),
          Action.set_property (Property.file file)] ++ later)).row) := by
  rw [← and_assoc]
  refine ⟨?_, ?_⟩
  swap
  · intro volume mount file later index produced q hq hget
    have hc := construction_file_cancels env template volume mount file q hq
    rw [run_append] at hget ⊢
    rw [step_finished_cancelled env _ index produced q hget
      (run_cancelled_mono env _ later _ hc)]
  have hinv : Inv (run env (initial template) actions) := inv_run env _ actions (inv_initial template)
  generalize run env (initial template) actions = s at hinv ⊢
  obtain ⟨row, hrow, -, hp | hp⟩ := set_property_shape s p
  · have hinv2 : Inv { s with row := row } := inv_of_row s row hinv hrow
    rw [hp]
    constructor
    · intro hne
      obtain ⟨file, -, h2, h3, h4, h5, h6⟩ :=
        measure_available_space_issued { s with row := row } hinv2 hne
      refine ⟨fun c hc => h5 c (by rw [← hc]; exact hrow), h2, ?_, h4, ?_⟩
      · intro hc
        exact h3 (by rw [← hc]; exact hrow)
      · intro later index produced q hq hget
        rw [step_finished_cancelled env _ index produced q hget
          (run_cancelled_mono env _ later _ (h6 q hq))]
    · intro heq
      obtain ⟨h1, h2⟩ := measure_available_space_not_issued { s with row := row } heq
      exact ⟨h1, by rw [h2]; exact hrow⟩
  · rw [hp]
    exact ⟨fun hne => absurd rfl hne, fun _ => ⟨rfl, hrow⟩⟩

theorem set_is_network_label (row : GtkNautilusPlacesViewRow) (b : Bool) :
    (gtk_nautilus_places_view_row_set_is_network row b).available_space_label =
      row.available_space_label := by
  unfold gtk_nautilus_places_view_row_set_is_network
  split <;> rfl

/-- A transition that takes the label from blank to non-blank is the completion
of an outstanding query whose cancellable is not cancelled, the operation
having produced an info with both attributes. -/
theorem label_written_only_by_success (env : Env) (s : State) (a : Action)
    (hblank : s.row.available_space_label.label = "")
    (hne : (step env s a).row.available_space_label.label ≠ "") :
    ∃ (index : Nat) (q : Query) (free_space total_space : Nat),
      a = Action.finished index (QueryResult.info ⟨some free_space, some total_space⟩) ∧
      s.pending.get? index = some q ∧ q.cancellable ∉ s.cancelled := by
  cases a with
  | set_property p =>
    exfalso
    obtain ⟨row, -, hl, hp | hp⟩ := set_property_shape s p
    · simp only [step, hp] at hne
      exact hne (measure_available_space_label _)
    · simp only [step, hp] at hne
      exact hne (by rw [hl]; exact hblank)
  | set_is_network b =>
    exfalso
    simp only [step, set_is_network_label] at hne
    exact hne hblank
  | set_busy b => exact absurd hblank hne
  | finished index produced =>
    cases hq : s.pending.get? index with
    | none =>
      simp only [step, hq] at hne
      exact absurd hblank hne
    | some q =>
      by_cases hc : q.cancellable ∈ s.cancelled
      · rw [step_finished_cancelled env s index produced q hq hc] at hne
        exact absurd hblank hne
      · simp only [step, hq, g_file_query_filesystem_info_finish, hc, if_false] at hne
        cases produced with
        | error e =>
          exfalso
          have := (measure_available_space_finished_error_row env
            { s with pending := s.pending.eraseIdx index } e).1
          rw [this] at hne
          exact hne hblank
        | info i =>
          obtain ⟨free_space, total_space⟩ := i
          cases free_space with
          | none => exact absurd hblank hne
          | some f =>
            cases total_space with
            | none => exact absurd hblank hne
            | some t => exact ⟨index, q, f, t, rfl, hq, hc⟩

/-- Claim C17: `measure_available_space` leaves the label blank in every state
and whether or not it issues a query; when a property set of a reached row has
started a probe and that probe completes with an error, the label is blank, the
probe is no longer outstanding and no uncancelled probe is left (the row is
idle); and a transition takes the label from blank to non-blank only if it is
the completion of an uncancelled outstanding query with an info carrying both
attributes. -/
theorem probe_state_machine (env : Env) (template : GtkNautilusPlacesViewRow)
    (actions : List Action) (p : Property) (error : GError) :
    (∀ s : State, (measure_available_space s).row.available_space_label.label = "") ∧
    ((gtk_nautilus_places_view_row_set_property (run env (initial template) actions) p).pending ≠
        (run env (initial template) actions).pending →
      (step env (gtk_nautilus_places_view_row_set_property (run env (initial template) actions) p)
        (Action.finished (run env (initial template) actions).pending.length
          (QueryResult.error error))).row.available_space_label.label = "" ∧
      (step env (gtk_nautilus_places_view_row_set_property (run env (initial template) actions) p)
        (Action.finished (run env (initial template) actions).pending.length
          (QueryResult.error error))).pending = (run env (initial template) actions).pending ∧
      live (step env
        (gtk_nautilus_places_view_row_set_property (run env (initial template) actions) p)
        (Action.finished (run env (initial template) actions).pending.length
          (QueryResult.error error))) = []) ∧
    (∀ (s : State) (a : Action), s.row.available_space_label.label = "" →
      (step env s a).row.available_space_label.label ≠ "" →
      ∃ (index : Nat) (q : Query) (free_space total_space : Nat),
        a = Action.finished index (QueryResult.info ⟨some free_space, some total_space⟩) ∧
        s.pending.get? index = some q ∧ q.cancellable ∉ s.cancelled) := by
  refine ⟨measure_available_space_label, ?_, label_written_only_by_success env⟩
  have hinv : Inv (run env (initial template) actions) := inv_run env _ actions (inv_initial template)
  generalize run env (initial template) actions = s at hinv ⊢
  intro hne
  obtain ⟨row, hrow, -, hp | hp⟩ := set_property_shape s p
  · have hinv2 : Inv { s with row := row } := inv_of_row s row hinv hrow
    rw [hp] at hne ⊢
    obtain ⟨file, h1, -, -, h4, -, h6⟩ :=
      measure_available_space_issued { s with row := row } hinv2 hne
    have hlabel := measure_available_space_label { s with row := row }
    generalize measure_available_space { s with row := row } = s1 at h1 h4 h6 hlabel ⊢
    have h1b : s1.pending = s.pending ++ [⟨file, filesystem_attributes, s.next⟩] := h1
    have h4b : s.next ∉ s1.cancelled := h4
    have hget : s1.pending.get? s.pending.length = some ⟨file, filesystem_attributes, s.next⟩ := by
      rw [h1b, List.get?_eq_getElem?, List.getElem?_concat_length]
    have herase : s1.pending.eraseIdx s.pending.length = s.pending := by
      rw [h1b, List.eraseIdx_append_of_length_le (Nat.le_refl _)]
      simp
    have hstep : step env s1 (Action.finished s.pending.length (QueryResult.error error)) =
        measure_available_space_finished env { s1 with pending := s.pending }
          (QueryResult.error error) := by
      simp only [step, hget, g_file_query_filesystem_info_finish, h4b, if_false, herase]
    rw [hstep]
    obtain ⟨e1, e2, e3, -⟩ := measure_available_space_finished_error_row env
      { s1 with pending := s.pending } error
    refine ⟨by rw [e1]; exact hlabel, e3, ?_⟩
    simp only [live, e2, e3]
    rw [List.filter_eq_nil_iff]
    intro q hq
    simpa using h6 q hq
  · rw [hp] at hne
    exact absurd rfl hne

end PlacesViewRow

/-! ## Life cycle of the D-Bus manager -/

namespace DBusManager

/-- Claim C14: `nautilus_dbus_manager_dispose` unregisters the object exactly
when `registration_id` is non-zero and releases the name exactly when
`owner_id` is non-zero, each at most once and with the identifier held;
afterwards both identifiers are `0` and the connection is cleared, so a second
dispose makes no call and changes nothing. -/
theorem nautilus_dbus_manager_dispose_idempotent (self : NautilusDBusManager) :
    (nautilus_dbus_manager_dispose self).2 =
      (if self.registration_id ≠ 0 then
        [BusCall.g_dbus_connection_unregister_object self.connection self.registration_id]
       else []) ++
      (if self.owner_id ≠ 0 then [BusCall.g_bus_unown_name self.owner_id] else []) ∧
    ((∃ connection id, BusCall.g_dbus_connection_unregister_object connection id ∈
        (nautilus_dbus_manager_dispose self).2) ↔ self.registration_id ≠ 0) ∧
    ((∃ id, BusCall.g_bus_unown_name id ∈ (nautilus_dbus_manager_dispose self).2) ↔
      self.owner_id ≠ 0) ∧
    (nautilus_dbus_manager_dispose self).1 =
      { connection := none, owner_id := 0, registration_id := 0 } ∧
    nautilus_dbus_manager_dispose (nautilus_dbus_manager_dispose self).1 =
      ((nautilus_dbus_manager_dispose self).1, []) := by
  obtain ⟨connection, owner_id, registration_id⟩ := self
  by_cases hr : registration_id = 0 <;> by_cases ho : owner_id = 0 <;>
    simp [nautilus_dbus_manager_dispose, hr, ho]

/-- The objects not yet disposed are exactly the one `singleton` points to. -/
theorem objects_of_singleton_start (p : Process)
    (h : p.objects.map Prod.fst = p.singleton.toList) (hs : p.singleton = none) :
    (nautilus_dbus_manager_start p).objects.map Prod.fst =
      (nautilus_dbus_manager_start p).singleton.toList := by
  have hnil : p.objects = [] := by
    rw [hs] at h
    simpa using h
  simp [nautilus_dbus_manager_start, hnil]

theorem objects_of_singleton_stop (p : Process)
    (h : p.objects.map Prod.fst = p.singleton.toList) :
    (nautilus_dbus_manager_stop p).objects.map Prod.fst =
      (nautilus_dbus_manager_stop p).singleton.toList := by
  cases hs : p.singleton with
  | none =>
    have : nautilus_dbus_manager_stop p = p := by simp [nautilus_dbus_manager_stop, hs]
    rw [this, hs]
    rw [hs] at h
    exact h
  | some object =>
    rw [hs] at h
    obtain ⟨o, ho⟩ : ∃ o, p.objects = [o] := by
      match hp : p.objects with
      | [] => rw [hp] at h; simp at h
      | [o] => exact ⟨o, rfl⟩
      | _ :: _ :: _ => rw [hp] at h; simp at h
    have hfst : o.1 = object := by
      rw [ho] at h
      simpa using h
    simp [nautilus_dbus_manager_stop, hs, ho, hfst]

theorem nautilus_dbus_manager_stop_singleton (p : Process) :
    (nautilus_dbus_manager_stop p).singleton = none := by
  unfold nautilus_dbus_manager_stop
  split
  · assumption
  · split <;> rfl

theorem trajectory_objects (p : Process) (calls : List Call)
    (h : p.objects.map Prod.fst = p.singleton.toList)
    (hd : starts_when_absent p calls = true) :
    ∀ q ∈ trajectory p calls, q.objects.map Prod.fst = q.singleton.toList := by
  induction calls generalizing p with
  | nil =>
    intro q hq
    simp only [trajectory, List.mem_singleton] at hq
    rw [hq]
    exact h
  | cons c rest ih =>
    intro q hq
    simp only [trajectory, List.mem_cons] at hq
    rcases hq with rfl | hq
    · exact h
    · cases c with
      | start =>
        simp only [starts_when_absent, Bool.and_eq_true, Option.isNone_iff_eq_none] at hd
        exact ih (call p Call.start) (objects_of_singleton_start p h hd.1) hd.2 q hq
      | stop =>
        simp only [starts_when_absent] at hd
        exact ih (call p Call.stop) (objects_of_singleton_stop p h) hd q hq

/-- Claim C15 as stated fails: after two calls of `nautilus_dbus_manager_start`
two manager objects exist that have not been disposed; `singleton` points to
the second, and a following stop disposes that one only. -/
theorem start_twice_two_instances :
    (call (call boot Call.start) Call.start).objects.map Prod.fst = [0, 1] ∧
    (call (call boot Call.start) Call.start).objects.length = 2 ∧
    (call (call boot Call.start) Call.start).singleton = some 1 ∧
    (call (call (call boot Call.start) Call.start) Call.stop).objects.map Prod.fst = [0] := by
  decide

/-- Claim C15, amended: over every sequence of start and stop calls in which
`nautilus_dbus_manager_start` is only called while `singleton` is absent, at
every moment at most one manager object exists that has not been disposed, and
it is the one `singleton` points to; after `nautilus_dbus_manager_stop` the
singleton is absent, and a stop while it is absent changes nothing. -/
theorem at_most_one_instance (calls : List Call)
    (h : starts_when_absent boot calls = true) :
    (∀ q ∈ trajectory boot calls,
      q.objects.length ≤ 1 ∧ q.objects.map Prod.fst = q.singleton.toList) ∧
    (∀ p : Process, (nautilus_dbus_manager_stop p).singleton = none) ∧
    (∀ p : Process, p.singleton = none → nautilus_dbus_manager_stop p = p) := by
  refine ⟨?_, nautilus_dbus_manager_stop_singleton, ?_⟩
  · intro q hq
    have hq2 := trajectory_objects boot calls rfl h q hq
    refine ⟨?_, hq2⟩
    have hlen : q.objects.length = q.singleton.toList.length := by
      rw [← hq2, List.length_map]
    rw [hlen]
    cases q.singleton <;> simp
  · intro p hp
    simp [nautilus_dbus_manager_stop, hp]

/-- Instance of C15: stop, start, stop, start. -/
theorem at_most_one_instance_witness :
    (∀ q ∈ trajectory boot [Call.stop, Call.start, Call.stop, Call.start],
      q.objects.length ≤ 1 ∧ q.objects.map Prod.fst = q.singleton.toList) ∧
    (∀ p : Process, (nautilus_dbus_manager_stop p).singleton = none) ∧
    (∀ p : Process, p.singleton = none → nautilus_dbus_manager_stop p = p) :=
  at_most_one_instance [Call.stop, Call.start, Call.stop, Call.start] (by decide)

set_option maxRecDepth 100000 in
/-- The node description read from `introspection_xml`. -/
theorem introspection_xml_parsed :
    g_dbus_node_info_new_for_xml introspection_xml =
      some ⟨none, [⟨"org.gnome.Nautilus.FileOperations",
        [⟨"CopyURIs", [⟨some "URIList", "as"⟩, ⟨some "Destination", "s"⟩], []⟩], [], []⟩]⟩ := by
  decide

/-- Claim C16: the manager asks for the well-known name `org.gnome.Nautilus` on
the session bus; when the bus is acquired it registers, at the object path
`/org/gnome/Nautilus`, the first interface of `introspection_xml`, which is
`org.gnome.Nautilus.FileOperations` with exactly one method, `CopyURIs`, whose
input arguments are `URIList` of type `as` and `Destination` of type `s`, in
that order, and which has no output argument (and no signal or property). -/
theorem service_interface (owner_id : Nat) (self : NautilusDBusManager)
    (conn : GDBusConnection) (registered : Option Nat) (error_message : String) :
    (nautilus_dbus_manager_init owner_id).2 =
      [BusCall.g_bus_own_name GBusType.G_BUS_TYPE_SESSION "org.gnome.Nautilus"
        G_BUS_NAME_OWNER_FLAGS_NONE] ∧
    (g_dbus_node_info_new_for_xml introspection_xml).map (fun node => node.interfaces) =
      some [{ name := "org.gnome.Nautilus.FileOperations"
              methods := [{ name := "CopyURIs"
                            in_args := [⟨some "URIList", "as"⟩, ⟨some "Destination", "s"⟩]
                            out_args := [] }]
              signals := []
              properties := [] }] ∧
    (bus_acquired_handler_cb g_dbus_node_info_new_for_xml registered error_message
        self conn).2.head? =
      some (BusCall.g_dbus_connection_register_object conn "/org/gnome/Nautilus"
        (some { name := "org.gnome.Nautilus.FileOperations"
                methods := [{ name := "CopyURIs"
                              in_args := [⟨some "URIList", "as"⟩, ⟨some "Destination", "s"⟩]
                              out_args := [] }]
                signals := []
                properties := [] })) := by
  refine ⟨rfl, by rw [introspection_xml_parsed]; rfl, ?_⟩
  simp only [bus_acquired_handler_cb, introspection_xml_parsed]
  cases registered <;> rfl

end DBusManager

/-! ## The empty view -/

namespace EmptyView

/-- Claim C18: in every state of the empty view, so after any sequence of
`add_file`, `remove_file`, `set_selection`, `select_all`, `zoom_to_level`,
`bump_zoom_level` and `restore_default_zoom_level` calls, the selection and the
selection for file transfer are the empty list, the zoom level is the standard
one, the view can zoom neither in nor out and does not use the manual layout;
the selection and zoom operations always return and leave the file counter as
it was, and all of them but `set_selection`, which notifies, leave the whole
view as it was. -/
theorem empty_view_answers (start : NautilusEmptyView) (calls : List Call) :
    (∀ view, run start calls = some view →
      nautilus_empty_view_get_selection view = [] ∧
      nautilus_empty_view_get_selection_for_file_transfer view = [] ∧
      nautilus_empty_view_get_zoom_level view =
        NautilusCanvasZoomLevel.NAUTILUS_CANVAS_ZOOM_LEVEL_STANDARD ∧
      nautilus_empty_view_can_zoom_in view = false ∧
      nautilus_empty_view_can_zoom_out view = false ∧
      nautilus_empty_view_using_manual_layout view = false) ∧
    (∀ view : NautilusEmptyView,
      nautilus_empty_view_get_selection view = [] ∧
      nautilus_empty_view_get_selection_for_file_transfer view = [] ∧
      nautilus_empty_view_get_zoom_level view =
        NautilusCanvasZoomLevel.NAUTILUS_CANVAS_ZOOM_LEVEL_STANDARD ∧
      nautilus_empty_view_can_zoom_in view = false ∧
      nautilus_empty_view_can_zoom_out view = false ∧
      nautilus_empty_view_using_manual_layout view = false) ∧
    (∀ (view : NautilusEmptyView) (c : Call), c.is_selection_or_zoom = true →
      ∃ after, call view c = some after ∧ after.number_of_files = view.number_of_files ∧
        ((∀ selection, c ≠ Call.set_selection selection) → after = view)) ∧
    ((∀ c ∈ calls, c.is_selection_or_zoom = true) →
      ∃ view, run start calls = some view ∧ view.number_of_files = start.number_of_files) := by
  refine ⟨fun view _ => ⟨rfl, rfl, rfl, rfl, rfl, rfl⟩, fun view => ⟨rfl, rfl, rfl, rfl, rfl, rfl⟩,
    ?_, ?_⟩
  · intro view c hc
    cases c with
    | add_file f => cases hc
    | remove_file f => cases hc
    | set_selection sel => exact ⟨_, rfl, rfl, fun h => absurd rfl (h sel)⟩
    | select_all => exact ⟨_, rfl, rfl, fun _ => rfl⟩
    | zoom_to_level z => exact ⟨_, rfl, rfl, fun _ => rfl⟩
    | bump_zoom_level i => exact ⟨_, rfl, rfl, fun _ => rfl⟩
    | restore_default_zoom_level => exact ⟨_, rfl, rfl, fun _ => rfl⟩
  · intro hall
    induction calls generalizing start with
    | nil => exact ⟨start, rfl, rfl⟩
    | cons c rest ih =>
      have hc : c.is_selection_or_zoom = true := hall c (by simp)
      have hrest : ∀ c ∈ rest, c.is_selection_or_zoom = true :=
        fun d hd => hall d (by simp [hd])
      cases c with
      | add_file f => cases hc
      | remove_file f => cases hc
      | set_selection sel =>
        obtain ⟨view, hv, hn⟩ := ih (nautilus_empty_view_set_selection start sel) hrest
        exact ⟨view, hv, hn⟩
      | select_all => exact ih start hrest
      | zoom_to_level z => exact ih start hrest
      | bump_zoom_level i => exact ih start hrest
      | restore_default_zoom_level => exact ih start hrest

end EmptyView

/-! ## The places view -/

namespace PlacesView

/-- The test of `nautilus_places_view_set_location` holds exactly for a URI
other than that of the places view. -/
theorem set_location_test (uri : String) :
    logical_not (g_strcmp0 (some uri) (some "other-locations:///")) = 0 ↔
      uri ≠ "other-locations:///" := by
  unfold logical_not g_strcmp0
  by_cases h : uri = "other-locations:///"
  · simp [h]
  · simp only [h, if_false]
    constructor
    · intro _; exact h
    · intro _
      split <;> simp

theorem call_location (priv : NautilusPlacesViewPrivate) (c : Call)
    (h : ∃ location, priv.location = some location ∧
      g_file_get_uri location = "other-locations:///") :
    ∃ location, (call priv c).location = some location ∧
      g_file_get_uri location = "other-locations:///" := by
  cases c with
  | set_location location =>
    cases location with
    | none => exact h
    | some l =>
      by_cases hu : g_file_get_uri l = "other-locations:///"
      · refine ⟨l, ?_, hu⟩
        have ht := (set_location_test (g_file_get_uri l)).not.mpr (not_not.mpr hu)
        simp [call, nautilus_places_view_set_location, ht]
      · have ht := (set_location_test (g_file_get_uri l)).mpr hu
        simpa [call, nautilus_places_view_set_location, ht] using h
  | set_search_query query => exact h
  | set_selection selection => exact h

theorem foldl_call_location (calls : List Call) (priv : NautilusPlacesViewPrivate)
    (h : ∃ location, priv.location = some location ∧
      g_file_get_uri location = "other-locations:///") :
    ∃ location, (calls.foldl call priv).location = some location ∧
      g_file_get_uri location = "other-locations:///" := by
  induction calls generalizing priv with
  | nil => exact h
  | cons c rest ih => exact ih (call priv c) (call_location priv c h)

/-- Claim C19: `nautilus_places_view_set_location` changes nothing and calls
nothing for an absent location; for a location whose URI is not
`other-locations:///` it hands the location to the application exactly once
and leaves the view as it was; for a location whose URI is
`other-locations:///` it stores the location and calls nothing. So after any
sequence of setter calls on a new view `get_location` returns a location whose
URI is `other-locations:///`. -/
theorem places_view_location :
    (∀ priv, nautilus_places_view_set_location priv none = (priv, [])) ∧
    (∀ priv location, g_file_get_uri location ≠ "other-locations:///" →
      nautilus_places_view_set_location priv (some location) =
        (priv, [Event.nautilus_application_open_location_full location])) ∧
    (∀ priv location, g_file_get_uri location = "other-locations:///" →
      nautilus_places_view_set_location priv (some location) =
        ({ priv with location := some location }, [])) ∧
    (∀ calls : List Call, ∃ location,
      nautilus_places_view_get_location (run calls) = some location ∧
      g_file_get_uri location = "other-locations:///") := by
  refine ⟨fun _ => rfl, ?_, ?_, ?_⟩
  · intro priv location hu
    have ht := (set_location_test (g_file_get_uri location)).mpr hu
    simp [nautilus_places_view_set_location, ht]
  · intro priv location hu
    have ht := (set_location_test (g_file_get_uri location)).not.mpr (not_not.mpr hu)
    simp [nautilus_places_view_set_location, ht]
  · intro calls
    exact foldl_call_location calls nautilus_places_view_init ⟨_, rfl, rfl⟩

end PlacesView

/-! ## The preferences window -/

namespace PreferencesWindow

/-- The loop appends, in order, the labels and the names of the columns not
named `name`. -/
theorem create_icon_caption_combo_box_items_loop_eq (columns : List NautilusColumn)
    (items column_names : List String) :
    create_icon_caption_combo_box_items_loop columns items column_names =
      (items ++ (columns.filter (fun c => decide (c.name ≠ "name"))).map (fun c => c.label),
       column_names ++
        (columns.filter (fun c => decide (c.name ≠ "name"))).map (fun c => c.name)) := by
  induction columns generalizing items column_names with
  | nil => simp [create_icon_caption_combo_box_items_loop]
  | cons c rest ih =>
    by_cases h : c.name = "name"
    · simp [create_icon_caption_combo_box_items_loop, h, ih]
    · simp [create_icon_caption_combo_box_items_loop, h, ih]

/-- Claim C20: for every list of columns, `create_icon_caption_combo_box_items`
appends entries to the combo box and attaches a `column_names` array of the
same length, one more than there are columns not named `name`, so that on a
combo box without entries the entries and the array have the same length; the
first entry is `None` (as the catalogue renders it) with the name `none`; no
name in the array is `name`; and the other entries are, in the order of the
input, the labels of the columns not named `name`, entry `i` paired with name
`i`. -/
theorem create_icon_caption_combo_box_items_pairs (gettext : String → String)
    (combo_box : GtkComboBoxText) (columns : List NautilusColumn) :
    ∃ entries names : List String,
      (create_icon_caption_combo_box_items gettext combo_box columns).items =
        combo_box.items ++ entries ∧
      (create_icon_caption_combo_box_items gettext combo_box columns).column_names =
        some names ∧
      entries.length = names.length ∧
      names.length = 1 + (columns.filter (fun c => decide (c.name ≠ "name"))).length ∧
      (combo_box.items = [] →
        (create_icon_caption_combo_box_items gettext combo_box columns).items.length =
          names.length) ∧
      entries.head? = some (gettext "None") ∧
      names.head? = some "none" ∧
      "name" ∉ names ∧
      List.zip entries names =
        (gettext "None", "none") ::
          (columns.filter (fun c => decide (c.name ≠ "name"))).map
            (fun c => (c.label, c.name)) := by
  refine ⟨gettext "None" :: (columns.filter (fun c => decide (c.name ≠ "name"))).map
      (fun c => c.label),
    "none" :: (columns.filter (fun c => decide (c.name ≠ "name"))).map (fun c => c.name),
    ?_, ?_, ?_, ?_, ?_, rfl, rfl, ?_, ?_⟩
  · simp [create_icon_caption_combo_box_items, create_icon_caption_combo_box_items_loop_eq]
  · simp [create_icon_caption_combo_box_items, create_icon_caption_combo_box_items_loop_eq]
  · simp
  · simp [Nat.add_comm]
  · intro h
    simp [create_icon_caption_combo_box_items, create_icon_caption_combo_box_items_loop_eq, h]
  · intro hmem
    rcases List.mem_cons.mp hmem with hm | hm
    · exact absurd hm (by decide)
    · obtain ⟨c, hc, hname⟩ := List.mem_map.mp hm
      have := (List.mem_filter.mp hc).2
      simp only [decide_eq_true_eq] at this
      exact this hname
  · simp only [List.zip_cons_cons]
    congr 1
    induction columns.filter (fun c => decide (c.name ≠ "name")) with
    | nil => rfl
    | cons c rest ih => simp [ih]

/-- The combo box built for the columns `name`, `size` and `type`. -/
theorem create_icon_caption_combo_box_items_example :
    create_icon_caption_combo_box_items (fun msgid => msgid) empty_combo_box
        [⟨"name", "Name"⟩, ⟨"size", "Size"⟩, ⟨"type", "Type"⟩] =
      { items := ["None", "Size", "Type"], column_names := some ["none", "size", "type"]
        active := -1 } := by
  decide

end PreferencesWindow

/-! ## Release of the bus name -/

namespace DBusManager

/-- The releases of the name over a life of the manager, by the outcome of
`bus_acquired_handler_cb`: once when the document does not parse, once when the
object is registered, twice when the registration fails. -/
theorem lifecycle_releases (parse : String → Option GDBusNodeInfo) (registered : Option Nat)
    (error_message : String) (owner_id : Nat) (conn : GDBusConnection) (h : owner_id ≠ 0) :
    releases owner_id (lifecycle parse registered error_message owner_id conn) =
      match parse introspection_xml, registered with
      | none, _ => 1
      | some _, some _ => 1
      | some _, none => 2 := by
  cases hp : parse introspection_xml with
  | none =>
    simp [releases, lifecycle, nautilus_dbus_manager_init, bus_acquired_handler_cb, hp,
      nautilus_dbus_manager_dispose]
  | some node =>
    cases registered with
    | some id =>
      by_cases hid : id = 0 <;>
        simp [releases, lifecycle, nautilus_dbus_manager_init, bus_acquired_handler_cb, hp,
          nautilus_dbus_manager_dispose, h, hid]
    | none =>
      simp [releases, lifecycle, nautilus_dbus_manager_init, bus_acquired_handler_cb, hp,
        nautilus_dbus_manager_dispose, h]

/-- Claim C21, the code at the failing input: over the life of a manager whose
name is held under identifier `1` and whose registration on the acquired bus
fails, `g_bus_unown_name (1)` is called twice, once by
`bus_acquired_handler_cb`, which leaves `owner_id` set, and once by
`nautilus_dbus_manager_dispose`; when the document does not parse, or the
registration succeeds, it is called once. -/
theorem registration_failure_releases_twice :
    lifecycle g_dbus_node_info_new_for_xml none "An object is already exported" 1 7 =
      [BusCall.g_bus_own_name GBusType.G_BUS_TYPE_SESSION "org.gnome.Nautilus"
          G_BUS_NAME_OWNER_FLAGS_NONE,
       BusCall.g_dbus_connection_register_object 7 "/org/gnome/Nautilus"
          (some { name := "org.gnome.Nautilus.FileOperations"
                  methods := [{ name := "CopyURIs"
                                in_args := [⟨some "URIList", "as"⟩, ⟨some "Destination", "s"⟩]
                                out_args := [] }]
                  signals := []
                  properties := [] }),
       BusCall.g_warning "Error registering the FileOperations proxy on the bus: %s"
          "An object is already exported",
       BusCall.g_bus_unown_name 1,
       BusCall.g_bus_unown_name 1] ∧
    releases 1 (lifecycle g_dbus_node_info_new_for_xml none
      "An object is already exported" 1 7) = 2 ∧
    releases 1 (lifecycle g_dbus_node_info_new_for_xml (some 3) "" 1 7) = 1 ∧
    releases 1 (lifecycle (fun _ => none) none "Document is empty" 1 7) = 1 := by
  have h1 := lifecycle_releases g_dbus_node_info_new_for_xml none
    "An object is already exported" 1 7 (by decide)
  have h2 := lifecycle_releases g_dbus_node_info_new_for_xml (some 3) "" 1 7 (by decide)
  have h3 := lifecycle_releases (fun _ => none) none "Document is empty" 1 7 (by decide)
  rw [introspection_xml_parsed] at h1 h2
  refine ⟨?_, h1, h2, h3⟩
  simp only [lifecycle, bus_acquired_handler_cb, introspection_xml_parsed]
  rfl

end DBusManager

/-! ## The floating bar -/

namespace FloatingBar

/-- The bar keeps its children and gains one button per action added. -/
theorem add_actions_children (self : NautilusFloatingBar)
    (actions : List (Option String × Int)) :
    (add_actions self actions).children =
      self.children ++
        actions.map (fun a => (⟨ChildKind.button a.1, GINT_TO_POINTER a.2⟩ : Child)) := by
  induction actions generalizing self with
  | nil => simp [add_actions]
  | cons a rest ih =>
    have h := ih (nautilus_floating_bar_add_action self a.1 a.2)
    simp only [add_actions, List.foldl_cons] at h ⊢
    rw [h]
    simp [nautilus_floating_bar_add_action]

/-- With action identifiers other than `0`, cleaning up the constructed bar
destroys every button added and keeps the spinner and the labels. -/
theorem cleanup_actions_nonzero (actions : List (Option String × Int))
    (h : ∀ a ∈ actions, a.2 ≠ 0) :
    (nautilus_floating_bar_cleanup_actions
      (add_actions nautilus_floating_bar_constructed actions)).children =
        nautilus_floating_bar_constructed.children := by
  simp only [nautilus_floating_bar_cleanup_actions, add_actions_children, List.filter_append]
  have hnil : List.filter (fun widget : Child => widget.action_id == 0)
      (actions.map (fun a => (⟨ChildKind.button a.1, GINT_TO_POINTER a.2⟩ : Child))) = [] := by
    rw [List.filter_eq_nil_iff]
    intro c hc
    obtain ⟨a, ha, rfl⟩ := List.mem_map.mp hc
    simpa [GINT_TO_POINTER] using h a ha
  rw [hnil]
  rfl

/-- Claim C24, the code at the failing input: a button added with the action
identifier `0` carries the null pointer under `action-id`, so
`nautilus_floating_bar_cleanup_actions` takes it for a child without the key
and does not destroy it; the bar is left with the button and not interactive.
A button added with the identifier `1` is destroyed. -/
theorem cleanup_actions_keeps_zero :
    (nautilus_floating_bar_cleanup_actions
      (add_actions nautilus_floating_bar_constructed
        [(some "process-stop-symbolic", 0)])).children =
      [⟨ChildKind.spinner, 0⟩, ⟨ChildKind.labels_box, 0⟩,
       ⟨ChildKind.button (some "process-stop-symbolic"), 0⟩] ∧
    buttons (nautilus_floating_bar_cleanup_actions
      (add_actions nautilus_floating_bar_constructed
        [(some "process-stop-symbolic", 0)])) =
      [⟨ChildKind.button (some "process-stop-symbolic"), 0⟩] ∧
    (nautilus_floating_bar_cleanup_actions
      (add_actions nautilus_floating_bar_constructed
        [(some "process-stop-symbolic", 0)])).is_interactive = false ∧
    buttons (nautilus_floating_bar_cleanup_actions
      (add_actions nautilus_floating_bar_constructed
        [(some "process-stop-symbolic", 1)])) = [] := by
  decide

/-- The comparison `g_strcmp0` is zero exactly for equal arguments. -/
theorem g_strcmp0_eq_zero (a b : Option String) : PlacesView.g_strcmp0 a b = 0 ↔ a = b := by
  cases a with
  | none => cases b <;> simp [PlacesView.g_strcmp0]
  | some x =>
    cases b with
    | none => simp [PlacesView.g_strcmp0]
    | some y =>
      by_cases h : x = y
      · simp [PlacesView.g_strcmp0, h]
      · simp only [PlacesView.g_strcmp0, h, if_false, Option.some.injEq, iff_false]
        split <;> simp

/-- A string has positive length exactly when it is not the empty string. -/
theorem strlen_pos (s : String) : strlen s > 0 ↔ s ≠ "" := by
  obtain ⟨l⟩ := s
  cases l with
  | nil => simp [strlen, String.utf8ByteSize, String.utf8ByteSize.go]
  | cons c t =>
    have hc := Char.utf8Size_pos c
    have hne : (⟨c :: t⟩ : String) ≠ "" := by
      intro h
      have := congrArg String.data h
      simp at this
    simp only [strlen, String.utf8ByteSize, String.utf8ByteSize.go, gt_iff_lt, ne_eq, hne,
      not_false_eq_true, iff_true]
    omega

/-- Claim C27: `nautilus_floating_bar_set_primary_label` and
`nautilus_floating_bar_set_details_label`, called with a value different from
the stored one, store the new value, notify the property once, and leave the
label widget showing the value and visible exactly when the value is present
and not empty; called with the stored value (two absent values included) they
change nothing, so they notify nothing. -/
theorem set_label_changes (self : NautilusFloatingBar) (label : Option String) :
    (label ≠ self.primary_label →
      (nautilus_floating_bar_set_primary_label self label).primary_label = label ∧
      ((nautilus_floating_bar_set_primary_label self label).primary_label_widget.visible = true ↔
        ∃ text, label = some text ∧ text ≠ "") ∧
      (nautilus_floating_bar_set_primary_label self label).primary_label_widget.text =
        label.getD "" ∧
      (nautilus_floating_bar_set_primary_label self label).notifications =
        self.notifications ++ ["primary-label"]) ∧
    (label = self.primary_label → nautilus_floating_bar_set_primary_label self label = self) ∧
    (label ≠ self.details_label →
      (nautilus_floating_bar_set_details_label self label).details_label = label ∧
      ((nautilus_floating_bar_set_details_label self label).details_label_widget.visible = true ↔
        ∃ text, label = some text ∧ text ≠ "") ∧
      (nautilus_floating_bar_set_details_label self label).details_label_widget.text =
        label.getD "" ∧
      (nautilus_floating_bar_set_details_label self label).notifications =
        self.notifications ++ ["details-label"]) ∧
    (label = self.details_label → nautilus_floating_bar_set_details_label self label = self) := by
  refine ⟨?_, ?_, ?_, ?_⟩
  · intro hne
    have hc : PlacesView.g_strcmp0 self.primary_label label ≠ 0 :=
      fun h => hne ((g_strcmp0_eq_zero _ _).mp h).symm
    have he : nautilus_floating_bar_set_primary_label self label =
        update_labels { self with
          primary_label := label
          notifications := self.notifications ++ ["primary-label"] } := by
      simp [nautilus_floating_bar_set_primary_label, hc]
    rw [he]
    refine ⟨rfl, ?_, rfl, rfl⟩
    cases label with
    | none => simp [update_labels]
    | some text => simpa [update_labels] using strlen_pos text
  · intro heq
    have hc : PlacesView.g_strcmp0 self.primary_label label = 0 :=
      (g_strcmp0_eq_zero _ _).mpr heq.symm
    simp [nautilus_floating_bar_set_primary_label, hc]
  · intro hne
    have hc : PlacesView.g_strcmp0 self.details_label label ≠ 0 :=
      fun h => hne ((g_strcmp0_eq_zero _ _).mp h).symm
    have he : nautilus_floating_bar_set_details_label self label =
        update_labels { self with
          details_label := label
          notifications := self.notifications ++ ["details-label"] } := by
      simp [nautilus_floating_bar_set_details_label, hc]
    rw [he]
    refine ⟨rfl, ?_, rfl, rfl⟩
    cases label with
    | none => simp [update_labels]
    | some text => simpa [update_labels] using strlen_pos text
  · intro heq
    have hc : PlacesView.g_strcmp0 self.details_label label = 0 :=
      (g_strcmp0_eq_zero _ _).mpr heq.symm
    simp [nautilus_floating_bar_set_details_label, hc]

/-- Claim C29: `overlay_enter_notify_cb` always returns `FALSE`; it leaves the
horizontal alignment as it is when the event is for another window or the bar
is interactive; otherwise it sets the alignment to `END` if it was `START` and
to `START` in every other case, so that from `START` or from `END` two such
events in a row give the original alignment back. -/
theorem overlay_enter_notify_cb_alignment (self : NautilusFloatingBar)
    (event_window : Option Nat) :
    (overlay_enter_notify_cb self event_window).1 = false ∧
    ((event_window ≠ self.window ∨ self.is_interactive = true) →
      (overlay_enter_notify_cb self event_window).2 = self) ∧
    ((event_window = self.window ∧ self.is_interactive = false) →
      (overlay_enter_notify_cb self event_window).2.halign =
        (if self.halign = GtkAlign.GTK_ALIGN_START then GtkAlign.GTK_ALIGN_END
         else GtkAlign.GTK_ALIGN_START) ∧
      ((self.halign = GtkAlign.GTK_ALIGN_START ∨ self.halign = GtkAlign.GTK_ALIGN_END) →
        (overlay_enter_notify_cb (overlay_enter_notify_cb self event_window).2
          event_window).2.halign = self.halign)) := by
  refine ⟨?_, ?_, ?_⟩
  · unfold overlay_enter_notify_cb
    split
    · rfl
    · split <;> rfl
  · rintro (h | h)
    · simp [overlay_enter_notify_cb, h]
    · simp [overlay_enter_notify_cb, h]
  · rintro ⟨hw, hi⟩
    constructor
    · simp [overlay_enter_notify_cb, hw, hi]
    · rintro (h | h) <;> simp [overlay_enter_notify_cb, hw, hi, h]

end FloatingBar

/-! ## The file counter of the empty view -/

namespace EmptyView

end EmptyView

/-! ## Mappings of the preferences window -/

namespace PreferencesWindow

/-- What the loop of `uint_enum_get_mapping` returns: the least position whose
entry is at least `v`, counted from `i`, or nothing when every entry is below
`v`. -/
theorem uint_enum_get_mapping_loop_spec (v : Nat) (l : List Nat) (i : Nat) :
    match uint_enum_get_mapping_loop v l i with
    | some r => ∃ k, r = i + k ∧ (∃ x, l[k]? = some x ∧ v ≤ x) ∧
        ∀ j y, j < k → l[j]? = some y → y < v
    | none => ∀ x ∈ l, x < v := by
  induction l generalizing i with
  | nil => simp [uint_enum_get_mapping_loop]
  | cons a t ih =>
    by_cases h : a ≥ v
    · simp only [uint_enum_get_mapping_loop, h, if_true]
      exact ⟨0, rfl, ⟨a, List.getElem?_cons_zero, h⟩,
        fun j y hj => absurd hj (Nat.not_lt_zero j)⟩
    · simp only [uint_enum_get_mapping_loop, h, if_false]
      have := ih (i + 1)
      split at this
      · obtain ⟨k, hk, ⟨x, hx, hvx⟩, hlt⟩ := this
        refine ⟨k + 1, by omega, ⟨x, by simpa using hx, hvx⟩, ?_⟩
        intro j y hj hy
        cases j with
        | zero =>
          simp only [List.getElem?_cons_zero, Option.some.injEq] at hy
          omega
        | succ j2 => exact hlt j2 y (by omega) (by simpa using hy)
      · intro x hx
        rcases List.mem_cons.mp hx with rfl | hx
        · omega
        · exact this x hx

/-- Claim C22: `uint_enum_get_mapping` maps a stored value `v` to an index `i`
exactly when `i` is the least index of the table whose entry is at least `v`,
and reports failure exactly when `v` is greater than every entry; the table
`thumbnail_limit_values` has ten strictly increasing entries, and for each of
its indices `i` the value `uint_enum_set_mapping` stores for `i` is mapped back
to `i`. -/
theorem uint_enum_get_mapping_least (binding : UIntEnumBinding) (v : Nat) :
    (∀ i, uint_enum_get_mapping binding v = some i ↔
      ((∃ x, (binding.values.take binding.n_values)[i]? = some x ∧ v ≤ x) ∧
        ∀ j y, j < i → (binding.values.take binding.n_values)[j]? = some y → y < v)) ∧
    (uint_enum_get_mapping binding v = none ↔
      ∀ x ∈ binding.values.take binding.n_values, x < v) ∧
    thumbnail_limit_values.length = 10 ∧
    List.Pairwise (fun a b => a < b) thumbnail_limit_values ∧
    (∀ i : Nat, i < 10 →
      (uint_enum_set_mapping thumbnail_limit_binding (i : Int)).bind
        (uint_enum_get_mapping thumbnail_limit_binding) = some i) := by
  have hspec := uint_enum_get_mapping_loop_spec v (binding.values.take binding.n_values) 0
  refine ⟨?_, ?_, rfl, by decide, by decide⟩
  · intro i
    constructor
    · intro hi
      simp only [uint_enum_get_mapping] at hi
      rw [hi] at hspec
      obtain ⟨k, hk, hx, hlt⟩ := hspec
      have : i = k := by omega
      subst this
      exact ⟨hx, hlt⟩
    · rintro ⟨⟨x, hx, hvx⟩, hlt⟩
      cases hr : uint_enum_get_mapping_loop v (binding.values.take binding.n_values) 0 with
      | none =>
        rw [hr] at hspec
        have hmem : x ∈ binding.values.take binding.n_values := List.getElem?_mem hx
        have := hspec x hmem
        omega
      | some r =>
        rw [hr] at hspec
        obtain ⟨k, hk, ⟨y, hy, hvy⟩, hlt2⟩ := hspec
        have hrk : r = k := by omega
        subst hrk
        simp only [uint_enum_get_mapping, hr, Option.some.injEq]
        rcases Nat.lt_trichotomy r i with h | h | h
        · have := hlt r y h hy
          omega
        · exact h
        · have := hlt2 i x h hx
          omega
  · constructor
    · intro hn
      simp only [uint_enum_get_mapping] at hn
      rw [hn] at hspec
      exact hspec
    · intro hall
      cases hr : uint_enum_get_mapping_loop v (binding.values.take binding.n_values) 0 with
      | none => simp [uint_enum_get_mapping, hr]
      | some r =>
        rw [hr] at hspec
        obtain ⟨k, -, ⟨y, hy, hvy⟩, -⟩ := hspec
        have := hall y (List.getElem?_mem hy)
        omega

end PreferencesWindow

/-! ## Radio groups and caption combo boxes -/

namespace PreferencesWindow

/-- With at least as many values as widget names left, the loop of
`bind_builder_radio` pairs each widget name with the value at its index. -/
theorem bind_builder_radio_loop_zip (values widget_names : List String) (i : Nat)
    (h : widget_names.length ≤ (values.drop i).length) :
    bind_builder_radio_loop values widget_names i =
      widget_names.zip ((values.drop i).map some) := by
  induction widget_names generalizing i with
  | nil => simp [bind_builder_radio_loop]
  | cons n rest ih =>
    have hlt : i < values.length := by
      simp only [List.length_cons, List.length_drop] at h
      omega
    have hdrop : values.drop i = values[i] :: values.drop (i + 1) := List.drop_eq_getElem_cons hlt
    have hrest : rest.length ≤ (values.drop (i + 1)).length := by
      simp only [List.length_cons, List.length_drop] at h ⊢
      omega
    simp only [bind_builder_radio_loop, ih (i + 1) hrest, hdrop, List.map_cons,
      List.zip_cons_cons, List.getElem?_eq_getElem hlt]

/-- The boolean `radio_mapping_get` sets for a button. -/
theorem radio_mapping_get_active (value widget_value : String) :
    (radio_mapping_get value (some widget_value)).2 = decide (value = widget_value) := by
  unfold radio_mapping_get
  by_cases h : value = widget_value
  · subst h
    have := (FloatingBar.g_strcmp0_eq_zero (some value) (some value)).mpr rfl
    simp [this]
  · have : PlacesView.g_strcmp0 (some value) (some widget_value) ≠ 0 :=
      fun e => h (Option.some.inj ((FloatingBar.g_strcmp0_eq_zero _ _).mp e))
    simp [this, h]

/-- The buttons of a group with as many values as widget names: button `i` is
active exactly when the stored string is value `i`. -/
theorem radio_active_eq (widget_names values : List String) (value : String)
    (h : widget_names.length = values.length) :
    radio_active widget_names values value = values.map (fun x => decide (value = x)) := by
  have hz := bind_builder_radio_loop_zip values widget_names 0 (by simp [h])
  simp only [List.drop_zero] at hz
  unfold radio_active bind_builder_radio
  rw [hz]
  have hsnd : (widget_names.zip (values.map some)).map Prod.snd = values.map some :=
    List.map_snd_zip _ _ (by simp [h])
  have hcomp : (widget_names.zip (values.map some)).map
        (fun b => (radio_mapping_get value b.2).2) =
      ((widget_names.zip (values.map some)).map Prod.snd).map
        (fun wv => (radio_mapping_get value wv).2) := by
    simp [List.map_map]
  rw [hcomp, hsnd, List.map_map]
  apply List.map_congr_left
  intro x _
  exact radio_mapping_get_active value x

theorem count_true_decide_eq (values : List String) (value : String) :
    (values.map (fun x => decide (value = x))).count true = values.count value := by
  induction values with
  | nil => rfl
  | cons x t ih =>
    by_cases h : value = x
    · subst h
      simp [List.count_cons, ih]
    · have h2 : ¬ x = value := fun e => h e.symm
      simp [List.count_cons, ih, h, h2]

/-- Claim C23: in each of the five radio groups bound in
`nautilus_preferences_window_setup` the widget names and the values are equally
many and the values are pairwise distinct; `radio_mapping_get` always returns
`TRUE` and makes button `i` active exactly when the stored string equals value
`i`; so exactly one button of the group is active when the stored string is
one of the group's values, and none is otherwise. -/
theorem radio_groups_exclusive (group : List String × List String)
    (hg : group ∈ radio_groups) (value : String) :
    group.1.length = group.2.length ∧
    group.2.Nodup ∧
    (∀ widget_value, (radio_mapping_get value widget_value).1 = true) ∧
    (radio_active group.1 group.2 value).length = group.1.length ∧
    (∀ (i : Nat) (widget_value : String), group.2[i]? = some widget_value →
      (radio_active group.1 group.2 value)[i]? = some (decide (value = widget_value))) ∧
    (value ∈ group.2 → (radio_active group.1 group.2 value).count true = 1) ∧
    (value ∉ group.2 → (radio_active group.1 group.2 value).count true = 0) := by
  have hfacts : group.1.length = group.2.length ∧ group.2.Nodup := by
    simp only [radio_groups, List.mem_cons, List.mem_singleton, List.not_mem_nil, or_false] at hg
    rcases hg with rfl | rfl | rfl | rfl | rfl <;> exact ⟨rfl, by decide⟩
  obtain ⟨hlen, hnd⟩ := hfacts
  have hact := radio_active_eq group.1 group.2 value hlen
  refine ⟨hlen, hnd, ?_, ?_, ?_, ?_, ?_⟩
  · intro widget_value
    unfold radio_mapping_get
    split <;> rfl
  · rw [hact, List.length_map, hlen]
  · intro i widget_value hi
    rw [hact, List.getElem?_map, hi]
    rfl
  · intro hmem
    rw [hact, count_true_decide_eq]
    exact List.count_eq_one_of_mem hnd hmem
  · intro hmem
    rw [hact, count_true_decide_eq]
    exact List.count_eq_zero_of_not_mem hmem

/-- Instance of C23: the click-behaviour group with the stored string
`double`. -/
theorem radio_groups_exclusive_witness :
    (click_behavior_components, click_behavior_values).1.length =
      (click_behavior_components, click_behavior_values).2.length ∧
    (click_behavior_components, click_behavior_values).2.Nodup ∧
    (∀ widget_value, (radio_mapping_get "double" widget_value).1 = true) ∧
    (radio_active (click_behavior_components, click_behavior_values).1
      (click_behavior_components, click_behavior_values).2 "double").length =
        (click_behavior_components, click_behavior_values).1.length ∧
    (∀ (i : Nat) (widget_value : String),
      (click_behavior_components, click_behavior_values).2[i]? = some widget_value →
      (radio_active (click_behavior_components, click_behavior_values).1
        (click_behavior_components, click_behavior_values).2 "double")[i]? =
          some (decide ("double" = widget_value))) ∧
    ("double" ∈ (click_behavior_components, click_behavior_values).2 →
      (radio_active (click_behavior_components, click_behavior_values).1
        (click_behavior_components, click_behavior_values).2 "double").count true = 1) ∧
    ("double" ∉ (click_behavior_components, click_behavior_values).2 →
      (radio_active (click_behavior_components, click_behavior_values).1
        (click_behavior_components, click_behavior_values).2 "double").count true = 0) :=
  radio_groups_exclusive (click_behavior_components, click_behavior_values) (by decide) "double"

/-- Claim C25, the code at the failing input: with the columns name, size and
type and the stored captions `bogus`, `size`, `type`, the first caption combo
box is left by `nautilus_preferences_window_setup_icon_caption_page` without an
active entry, since `update_caption_combo_box` finds `bogus` in no
`column_names` array; its active index `-1` is not an index of the array, and
`icon_captions_changed_callback` reads the array outside its bounds. When every
stored caption names a column, the callback writes three names. -/
theorem caption_lookup_out_of_bounds :
    nautilus_preferences_window_setup_icon_caption_page (fun msgid => msgid) example_columns
        (some ["bogus", "size", "type"]) caption_combo_boxes =
      some [{ items := ["None", "Size", "Type"], column_names := some ["none", "size", "type"]
              active := -1 },
            { items := ["None", "Size", "Type"], column_names := some ["none", "size", "type"]
              active := 1 },
            { items := ["None", "Size", "Type"], column_names := some ["none", "size", "type"]
              active := 2 }] ∧
    g_ptr_array_index ["none", "size", "type"] (-1) = none ∧
    (nautilus_preferences_window_setup_icon_caption_page (fun msgid => msgid) example_columns
        (some ["bogus", "size", "type"]) caption_combo_boxes).bind
      icon_captions_changed_callback = none ∧
    (nautilus_preferences_window_setup_icon_caption_page (fun msgid => msgid) example_columns
        (some ["none", "size", "type"]) caption_combo_boxes).bind
      icon_captions_changed_callback = some ["none", "size", "type"] := by
  decide

/-- Claim C26: for every stored captions list, of any length `k`,
`update_icon_captions_from_settings` makes three rounds, one per caption combo
box in order; round `i` passes on the `i`-th stored caption when `i < k` and
`none` when `i ≥ k`; every read of the list is at an index not above `k`, the
index of the terminator, so no element past the terminator is read. -/
theorem update_icon_captions_rounds (captions : List String) :
    update_icon_captions_from_settings_loop captions icon_captions_components 0 =
      [⟨"captions_0_combobox", min 0 captions.length, captions[0]?.getD "none"⟩,
       ⟨"captions_1_combobox", min 1 captions.length, captions[1]?.getD "none"⟩,
       ⟨"captions_2_combobox", min 2 captions.length, captions[2]?.getD "none"⟩] ∧
    (∀ update ∈ update_icon_captions_from_settings_loop captions icon_captions_components 0,
      update.read ≤ captions.length) ∧
    (∀ i, i < 3 → i < captions.length →
      ((update_icon_captions_from_settings_loop captions icon_captions_components 0)[i]?).map
        (fun update => update.data) = captions[i]?) ∧
    (∀ i, i < 3 → captions.length ≤ i →
      ((update_icon_captions_from_settings_loop captions icon_captions_components 0)[i]?).map
        (fun update => update.data) = some "none") ∧
    (∀ combo_boxes, update_icon_captions_from_settings (some captions) combo_boxes =
      apply_caption_updates
        (update_icon_captions_from_settings_loop captions icon_captions_components 0)
        combo_boxes) := by
  have hshape : update_icon_captions_from_settings_loop captions icon_captions_components 0 =
      [⟨"captions_0_combobox", min 0 captions.length, captions[0]?.getD "none"⟩,
       ⟨"captions_1_combobox", min 1 captions.length, captions[1]?.getD "none"⟩,
       ⟨"captions_2_combobox", min 2 captions.length, captions[2]?.getD "none"⟩] := by
    match captions with
    | [] => rfl
    | [a] => rfl
    | [a, b] => rfl
    | a :: b :: c :: rest =>
      simp [update_icon_captions_from_settings_loop, icon_captions_components]
  refine ⟨hshape, ?_, ?_, ?_, fun _ => rfl⟩
  · rw [hshape]
    intro update hu
    simp only [List.mem_cons, List.mem_singleton, List.not_mem_nil, or_false] at hu
    rcases hu with rfl | rfl | rfl <;> exact Nat.min_le_right _ _
  · rw [hshape]
    intro i hi hk
    match i, hi with
    | 0, _ => simp [List.getElem?_eq_getElem hk]
    | 1, _ => simp [List.getElem?_eq_getElem hk]
    | 2, _ => simp [List.getElem?_eq_getElem hk]
  · rw [hshape]
    intro i hi hk
    match i, hi with
    | 0, _ => simp [List.getElem?_eq_none hk]
    | 1, _ => simp [List.getElem?_eq_none hk]
    | 2, _ => simp [List.getElem?_eq_none hk]

end PreferencesWindow

end Nautilus
